import Mathlib

/-!
Verification of the Octavia simulation kernel: a shallow embedding of the
ledger (ledger.py), the pricing backends (backends.py), the allocation
router (router.py) and the simulation engine (engine.py), together with
theorems settling the specification claims.

Monetary quantities are Python `Decimal` values; they are embedded as `ℚ`,
with `Decimal.quantize` (which rounds half to even) embedded explicitly.
Randomness (shock rolls, payout draws) is embedded as oracle inputs.
-/

namespace Octavia

/-- Round half to even (the rounding mode of Python `Decimal.quantize`
with the default ROUND_HALF_EVEN context). -/
def rhe (q : ℚ) : ℤ :=
  if q - (⌊q⌋ : ℚ) < 1/2 then ⌊q⌋
  else if 1/2 < q - (⌊q⌋ : ℚ) then ⌊q⌋ + 1
  else if ⌊q⌋ % 2 = 0 then ⌊q⌋ else ⌊q⌋ + 1

/-- `Decimal.quantize` to `d` fraction digits: `x.quantize(Decimal('0.01'))`
is `quant 2 x`, `x.quantize(Decimal('0.000001'))` is `quant 6 x`. -/
def quant (d : ℕ) (q : ℚ) : ℚ := (rhe (q * 10 ^ d) : ℚ) / 10 ^ d

lemma rhe_intCast (n : ℤ) : rhe (n : ℚ) = n := by
  unfold rhe
  rw [Int.floor_intCast]
  norm_num

lemma rhe_le_of_le {q r : ℚ} (h : q ≤ r) : rhe q ≤ rhe r := by
  have hfl : ⌊q⌋ ≤ ⌊r⌋ := Int.floor_le_floor h
  unfold rhe
  rcases lt_or_eq_of_le hfl with hlt | heq
  · split_ifs <;> omega
  · have hcast : (⌊q⌋ : ℚ) = (⌊r⌋ : ℚ) := by exact_mod_cast heq
    split_ifs <;> first
      | omega
      | (exfalso; linarith)

lemma rhe_sub_half_le (q : ℚ) : q - 1/2 ≤ (rhe q : ℚ) := by
  have h0 : (⌊q⌋ : ℚ) ≤ q := Int.floor_le q
  have h1 : q < (⌊q⌋ : ℚ) + 1 := Int.lt_floor_add_one q
  unfold rhe
  split_ifs <;> push_cast <;> linarith

lemma rhe_le_add_half (q : ℚ) : (rhe q : ℚ) ≤ q + 1/2 := by
  have h0 : (⌊q⌋ : ℚ) ≤ q := Int.floor_le q
  unfold rhe
  split_ifs <;> push_cast <;> linarith

lemma quant_le_of_le (d : ℕ) {q r : ℚ} (h : q ≤ r) : quant d q ≤ quant d r := by
  unfold quant
  have hp : (0 : ℚ) < 10 ^ d := by positivity
  have h2 : rhe (q * 10 ^ d) ≤ rhe (r * 10 ^ d) :=
    rhe_le_of_le (mul_le_mul_of_nonneg_right h (le_of_lt hp))
  have h3 : ((rhe (q * 10 ^ d) : ℤ) : ℚ) ≤ ((rhe (r * 10 ^ d) : ℤ) : ℚ) := by
    exact_mod_cast h2
  gcongr

lemma quant_int_div (d : ℕ) (n : ℤ) : quant d ((n : ℚ) / 10 ^ d) = (n : ℚ) / 10 ^ d := by
  unfold quant
  have hp : (10 : ℚ) ^ d ≠ 0 := by positivity
  rw [div_mul_cancel₀ _ hp, rhe_intCast]

lemma abs_quant_sub_self (d : ℕ) (q : ℚ) : |quant d q - q| ≤ 1 / (2 * 10 ^ d) := by
  have hp : (0 : ℚ) < 10 ^ d := by positivity
  have h1 := rhe_sub_half_le (q * 10 ^ d)
  have h2 := rhe_le_add_half (q * 10 ^ d)
  have he : quant d q - q = ((rhe (q * 10 ^ d) : ℚ) - q * 10 ^ d) / 10 ^ d := by
    unfold quant; field_simp; ring
  have habs : |(rhe (q * 10 ^ d) : ℚ) - q * 10 ^ d| ≤ 1/2 :=
    abs_le.mpr ⟨by linarith, by linarith⟩
  rw [he, abs_div, abs_of_pos hp]
  calc |(rhe (q * 10 ^ d) : ℚ) - q * 10 ^ d| / 10 ^ d
      ≤ (1/2) / 10 ^ d := by gcongr
    _ = 1 / (2 * 10 ^ d) := by ring

lemma abs_quant_sub_quant (d : ℕ) (q r : ℚ) :
    |quant d q - quant d r| ≤ |q - r| + 1 / 10 ^ d := by
  have h1 := abs_quant_sub_self d q
  have h2 := abs_quant_sub_self d r
  have hp : (0 : ℚ) < 10 ^ d := by positivity
  have key : quant d q - quant d r =
      (quant d q - q) - (quant d r - r) + (q - r) := by ring
  calc |quant d q - quant d r|
      ≤ |quant d q - q| + |quant d r - r| + |q - r| := by
        rw [key]
        calc |quant d q - q - (quant d r - r) + (q - r)|
            ≤ |quant d q - q - (quant d r - r)| + |q - r| := abs_add _ _
          _ ≤ |quant d q - q| + |quant d r - r| + |q - r| := by
              have := abs_sub (quant d q - q) (quant d r - r)
              linarith
    _ ≤ |q - r| + 1 / 10 ^ d := by
        have : 1 / (2 * 10 ^ d) + 1 / (2 * 10 ^ d) = 1 / (10 ^ d : ℚ) := by
          field_simp; norm_num
        linarith

/-! ## Ledger (ledger.py) -/

/-- A single asset holding (class `Asset` in ledger.py). -/
structure Asset where
  asset_type : String
  identifier : String
  quantity : ℚ
  cost_basis : ℚ
deriving Repr, DecidableEq

/-- The duck-typed price provider held by a `Ledger`.  `getBondPrice = none`
models a provider object without a `get_bond_price` attribute (the
`hasattr` check in ledger.py). -/
structure PriceView where
  getPrice : String → Option ℚ
  getBondPrice : Option (String → Option ℚ)

/-- The agent's financial state (class `Ledger`).  The price provider is a
live object reference in Python, so ledger operations here take the current
provider view as an explicit argument. -/
structure Ledger where
  _cash : ℚ
  assets : List Asset
deriving Repr, DecidableEq

/-- The `cash` property getter: quantized to 2 fraction digits. -/
def Ledger.cash (l : Ledger) : ℚ := quant 2 l._cash

/-- The `cash` property setter: quantizes to 2 fraction digits. -/
def Ledger.setCash (l : Ledger) (v : ℚ) : Ledger := { l with _cash := quant 2 v }

/-- `Ledger._find_asset`: first position matching (class, id). -/
def findAsset (asset_type identifier : String) : List Asset → Option Asset
  | [] => none
  | a :: rest =>
      if a.asset_type = asset_type ∧ a.identifier = identifier then some a
      else findAsset asset_type identifier rest

/-- Mutate the first matching asset in place. -/
def updateFirst (asset_type identifier : String) (f : Asset → Asset) : List Asset → List Asset
  | [] => []
  | a :: rest =>
      if a.asset_type = asset_type ∧ a.identifier = identifier then f a :: rest
      else a :: updateFirst asset_type identifier f rest

/-- `self.assets.remove(asset)` for the first matching asset. -/
def dropFirst (asset_type identifier : String) : List Asset → List Asset
  | [] => []
  | a :: rest =>
      if a.asset_type = asset_type ∧ a.identifier = identifier then rest
      else a :: dropFirst asset_type identifier rest

/-- The position merge of `Ledger.add_asset`: update an existing position
of the same (class, id) additively, or append a new one. -/
def addAssets (asset_type identifier : String) (quantity total_cost : ℚ)
    (assets : List Asset) : List Asset :=
  match findAsset asset_type identifier assets with
  | some _ =>
      updateFirst asset_type identifier
        (fun a => { a with quantity := a.quantity + quantity,
                           cost_basis := a.cost_basis + total_cost }) assets
  | none => assets ++ [⟨asset_type, identifier, quantity, total_cost⟩]

/-- `Ledger.add_asset`: fails if `total_cost` exceeds quantized cash;
otherwise debits raw cash and merges into an existing position of the same
(class, id) or appends a new one. -/
def Ledger.add_asset (l : Ledger) (asset_type identifier : String)
    (quantity total_cost : ℚ) : Bool × Ledger :=
  if total_cost > l.cash then (false, l)
  else
    (true, { _cash := l._cash - total_cost,
             assets := addAssets asset_type identifier quantity total_cost l.assets })

/-- `Ledger.remove_asset`: returns `(success, proceeds)` and the new ledger.
Proceeds are valued at the provider's market price for EQUITY/BOND, else at
average cost basis.  The unguarded `cost_basis / quantity` on the update
path raises `DivisionByZero` when the found position's quantity is zero,
modelled as `.error`. -/
def Ledger.remove_asset (pv : Option PriceView) (l : Ledger)
    (asset_type identifier : String) (quantity : ℚ) :
    Except String (Bool × ℚ × Ledger) :=
  match findAsset asset_type identifier l.assets with
  | none => .ok (false, 0, l)
  | some a =>
    if a.quantity < quantity then .ok (false, 0, l)
    else
      let fallback := if 0 < a.quantity then a.cost_basis / a.quantity else 0
      let price_per_unit :=
        match pv with
        | none => fallback
        | some v =>
          if asset_type = "EQUITY" then
            match v.getPrice identifier with
            | some mp => mp
            | none => fallback
          else if asset_type = "BOND" then
            match v.getBondPrice with
            | none => fallback
            | some gbp =>
              match gbp identifier with
              | some bp => bp
              | none => fallback
          else fallback
      let proceeds := price_per_unit * quantity
      if a.quantity = 0 then .error "DivisionByZero"
      else
        let cost_basis_per_unit := a.cost_basis / a.quantity
        let newQuantity := a.quantity - quantity
        let newCostBasis := a.cost_basis - cost_basis_per_unit * quantity
        let assets2 :=
          if newQuantity ≤ 1/1000000 then dropFirst asset_type identifier l.assets
          else updateFirst asset_type identifier
            (fun b => { b with quantity := newQuantity, cost_basis := newCostBasis }) l.assets
        .ok (true, proceeds, { _cash := l._cash + proceeds, assets := assets2 })

/-- The market value one asset contributes to NAV; assets with no
resolvable price (including every PROJECT position) contribute zero. -/
def navContribution (pv : Option PriceView) (a : Asset) : ℚ :=
  match pv with
  | none => 0
  | some v =>
    if a.asset_type = "EQUITY" then
      match v.getPrice a.identifier with
      | some mp => a.quantity * mp
      | none => 0
    else if a.asset_type = "BOND" then
      match v.getBondPrice with
      | none => 0
      | some gbp =>
        match gbp a.identifier with
        | some bp => a.quantity * bp
        | none => 0
    else 0

/-- `Ledger.get_nav`: quantized cash plus market value of priced assets. -/
def Ledger.get_nav (pv : Option PriceView) (l : Ledger) : ℚ :=
  quant 2 (l.cash + (l.assets.map (navContribution pv)).sum)

/-- One entry of `get_portfolio_holdings` (model `AssetHolding`). -/
structure AssetHolding where
  asset_type : String
  identifier : String
  quantity : ℚ
  current_value : ℚ
deriving Repr, DecidableEq

/-- One holding as built by `Ledger.get_portfolio_holdings`. -/
def holdingOf (pv : Option PriceView) (a : Asset) : AssetHolding :=
  let current_value :=
    match pv with
    | none => a.cost_basis
    | some v =>
      if a.asset_type = "EQUITY" then
        match v.getPrice a.identifier with
        | some mp => quant 2 (a.quantity * mp)
        | none => a.cost_basis
      else if a.asset_type = "BOND" then
        match v.getBondPrice with
        | none => a.cost_basis
        | some gbp =>
          match gbp a.identifier with
          | some bp => quant 2 (a.quantity * bp)
          | none => a.cost_basis
      else a.cost_basis
  { asset_type := a.asset_type, identifier := a.identifier,
    quantity := quant 6 a.quantity, current_value := quant 2 current_value }

/-- `Ledger.get_portfolio_holdings`. -/
def Ledger.get_portfolio_holdings (pv : Option PriceView) (l : Ledger) : List AssetHolding :=
  l.assets.map (holdingOf pv)

/-! ## Pricing backends (backends.py) -/

/-- Association-list lookup for the Python dict catalogues (unique keys,
insertion order). -/
def lookupD {α : Type} (k : String) : List (String × α) → Option α
  | [] => none
  | (k', v) :: rest => if k' = k then some v else lookupD k rest

/-- In-place update of a Python dict entry. -/
def updateD {α : Type} (k : String) (f : α → α) : List (String × α) → List (String × α)
  | [] => []
  | (k', v) :: rest =>
      if k' = k then (k', f v) :: rest else (k', v) :: updateD k f rest

/-- A stock (class `Stock`). -/
structure Stock where
  ticker : String
  price : ℚ
deriving Repr, DecidableEq

/-- Equity backend (class `TradeBackend`): catalogue of ticker → stock. -/
structure TradeBackend where
  stocks : List (String × Stock)
deriving Repr, DecidableEq

/-- `TradeBackend.get_price`. -/
def TradeBackend.get_price (tb : TradeBackend) (ticker : String) : Option ℚ :=
  (lookupD ticker tb.stocks).map Stock.price

/-- The `TradeBackend` object used as a ledger price provider: it has
`get_price` and no `get_bond_price` attribute. -/
def priceViewOfTrade (tb : TradeBackend) : PriceView :=
  { getPrice := tb.get_price, getBondPrice := none }

/-- `TradeBackend._execute_buy`. -/
def TradeBackend.execute_buy (ticker : String) (usd price : ℚ) (l : Ledger) :
    Bool × Ledger :=
  if l.cash < usd then (false, l)
  else l.add_asset "EQUITY" ticker (quant 6 (usd / price)) usd

/-- `TradeBackend._execute_sell`.  The ledger's own price provider view is
passed explicitly (the live reference `ledger.price_provider`). -/
def TradeBackend.execute_sell (pv : Option PriceView) (ticker : String)
    (usd price : ℚ) (l : Ledger) : Except String (Bool × Ledger) :=
  let shares_to_sell := quant 6 (usd / price)
  match findAsset "EQUITY" ticker l.assets with
  | none => .ok (false, l)
  | some a =>
    if a.quantity < shares_to_sell then .ok (false, l)
    else
      (l.remove_asset pv "EQUITY" ticker shares_to_sell).map
        (fun r => (r.1, r.2.2))

/-- `TradeBackend.execute_allocation`: buy for positive usd, sell for
negative, no-op success for zero, failure for an unknown ticker. -/
def TradeBackend.execute_allocation (tb : TradeBackend) (pv : Option PriceView)
    (ticker : String) (usd : ℚ) (l : Ledger) : Except String (Bool × Ledger) :=
  match tb.get_price ticker with
  | none => .ok (false, l)
  | some price =>
    if 0 < usd then .ok (TradeBackend.execute_buy ticker usd price l)
    else if usd < 0 then TradeBackend.execute_sell pv ticker |usd| price l
    else .ok (true, l)

/-- `TradeBackend.update_prices`: unknown tickers and `None` prices are
ignored. -/
def TradeBackend.update_prices (tb : TradeBackend)
    (price_changes : List (String × Option ℚ)) : TradeBackend :=
  { stocks := price_changes.foldl
      (fun stocks change =>
        match change.2 with
        | none => stocks
        | some p =>
          match lookupD change.1 stocks with
          | none => stocks
          | some _ => updateD change.1 (fun s => { s with price := p }) stocks)
      tb.stocks }

/-- A project (class `Project`); the constructor sets
`remaining_funding = required_investment`. -/
structure Project where
  project_id : String
  name : String
  required_investment : ℚ
  expected_return_pct : ℚ
  risk_level : String
  weeks_to_completion : ℤ
  success_probability : ℚ
  remaining_funding : ℚ
deriving Repr, DecidableEq

/-- The `Project.__init__` constructor. -/
def mkProject (project_id name : String) (required_investment expected_return_pct : ℚ)
    (risk_level : String) (weeks_to_completion : ℤ) (success_probability : ℚ) : Project :=
  { project_id, name, required_investment, expected_return_pct, risk_level,
    weeks_to_completion, success_probability,
    remaining_funding := required_investment }

/-- One capital commitment (class `ProjectInvestment`). -/
structure ProjectInvestment where
  project_id : String
  amount_invested : ℚ
  weeks_remaining : ℤ
deriving Repr, DecidableEq

/-- Project backend (class `ProjectBackend`). -/
structure ProjectBackend where
  available_projects : List (String × Project)
  agent_investments : List ProjectInvestment
deriving Repr, DecidableEq

/-- An entry of `get_available_projects` (model `ProjectInfo`); the source
reports `remaining_funding` in the `required_investment` field. -/
structure ProjectInfo where
  project_id : String
  name : String
  required_investment : ℚ
  expected_return_pct : ℚ
  risk_level : String
  weeks_to_completion : ℤ
deriving Repr, DecidableEq

/-- `ProjectBackend.get_available_projects`: projects with positive
remaining funding. -/
def ProjectBackend.get_available_projects (pb : ProjectBackend) : List ProjectInfo :=
  (pb.available_projects.filter (fun kv => 0 < kv.2.remaining_funding)).map
    (fun kv =>
      { project_id := kv.2.project_id, name := kv.2.name,
        required_investment := kv.2.remaining_funding,
        expected_return_pct := kv.2.expected_return_pct,
        risk_level := kv.2.risk_level,
        weeks_to_completion := kv.2.weeks_to_completion })

/-- `ProjectBackend.execute_allocation`: rejects an unknown id, a fully
funded project, or insufficient cash; caps the investment at
`remaining_funding`; credits a PROJECT position of quantity 1.0 and appends
an independent investment record. -/
def ProjectBackend.execute_allocation (pb : ProjectBackend) (project_id : String)
    (usd : ℚ) (l : Ledger) : Bool × ProjectBackend × Ledger :=
  match lookupD project_id pb.available_projects with
  | none => (false, pb, l)
  | some project =>
    if project.remaining_funding ≤ 0 then (false, pb, l)
    else if l.cash < usd then (false, pb, l)
    else
      let actual_investment := min usd project.remaining_funding
      let res := l.add_asset "PROJECT" project_id 1 actual_investment
      if res.1 = false then (false, pb, l)
      else
        (true,
         { available_projects :=
             updateD project_id
               (fun p => { p with remaining_funding := p.remaining_funding - actual_investment })
               pb.available_projects,
           agent_investments := pb.agent_investments ++
             [{ project_id := project_id, amount_invested := actual_investment,
                weeks_remaining := project.weeks_to_completion }] },
         res.2)

/-- The pseudo-random draws consumed by `_calculate_project_payout`:
`success_roll` is `np.random.random()`, `lognormal_mult` the sampled
`np.random.lognormal(...)` multiplier and `salvage_pct` the sampled
`np.random.uniform(0.1, 0.3)` value, all treated as oracle inputs. -/
structure PayoutDraw where
  success_roll : ℚ
  lognormal_mult : ℚ
  salvage_pct : ℚ

/-- `ProjectBackend._calculate_project_payout`, with the numpy samples as
oracle inputs; the result is quantized to 2 fraction digits. -/
def ProjectBackend.calculate_project_payout (pb : ProjectBackend)
    (inv : ProjectInvestment) (draw : PayoutDraw) : ℚ :=
  match lookupD inv.project_id pb.available_projects with
  | none => 0
  | some project =>
    if draw.success_roll < project.success_probability then
      quant 2 (inv.amount_invested * draw.lognormal_mult)
    else
      quant 2 (inv.amount_invested * draw.salvage_pct)

/-- The completion news for one completed record: a success or salvage
message when the project is in the catalogue, nothing otherwise. -/
def completionEvent (pb0 : ProjectBackend) (inv2 : ProjectInvestment)
    (payout : ℚ) : List String :=
  match lookupD inv2.project_id pb0.available_projects with
  | some project =>
    if inv2.amount_invested < payout then
      ["Project " ++ project.name ++ " succeeded! Payout: $" ++ toString payout]
    else
      ["Project " ++ project.name ++ " failed. Salvage: $" ++ toString payout]
  | none => []

/-- The loop body of `ProjectBackend.tick`: decrement every countdown; on
completion compute the payout, remove 1.0 unit of the PROJECT position,
credit cash with the payout (through the quantizing `cash` setter) and emit
a news string when the project is in the catalogue.  Returns the news
events, the surviving investment records and the mutated ledger. -/
def projTickGo (pb0 : ProjectBackend) (pv : Option PriceView)
    (draws : ℕ → PayoutDraw) :
    List ProjectInvestment → ℕ → Ledger →
      Except String (List String × List ProjectInvestment × Ledger)
  | [], _, l => .ok ([], [], l)
  | inv :: rest, i, l =>
    let inv2 := { inv with weeks_remaining := inv.weeks_remaining - 1 }
    if inv2.weeks_remaining ≤ 0 then do
      let payout := pb0.calculate_project_payout inv2 (draws i)
      let r ← l.remove_asset pv "PROJECT" inv2.project_id 1
      let l2 := r.2.2.setCash (r.2.2.cash + payout)
      let ev : List String := completionEvent pb0 inv2 payout
      let rec2 ← projTickGo pb0 pv draws rest (i + 1) l2
      .ok (ev ++ rec2.1, rec2.2.1, rec2.2.2)
    else do
      let rec2 ← projTickGo pb0 pv draws rest (i + 1) l
      .ok (rec2.1, inv2 :: rec2.2.1, rec2.2.2)

/-- `ProjectBackend.tick`. -/
def ProjectBackend.tick (pb : ProjectBackend) (pv : Option PriceView)
    (draws : ℕ → PayoutDraw) (l : Ledger) :
    Except String (List String × ProjectBackend × Ledger) :=
  (projTickGo pb pv draws pb.agent_investments 0 l).map
    (fun r => (r.1, { pb with agent_investments := r.2.1 }, r.2.2))

/-- A bond (class `Bond`); `maturity_years` is an `int` in the source,
embedded as the rational it is converted to. -/
structure Bond where
  bond_id : String
  name : String
  face_value : ℚ
  coupon_rate : ℚ
  maturity_years : ℚ
  current_price : ℚ
  yield_to_maturity : ℚ
deriving Repr, DecidableEq

/-- `Bond._calculate_ytm`: 0 at price 0, else the simple yield formula
quantized to 4 fraction digits. -/
def Bond.calculate_ytm (b : Bond) : ℚ :=
  if b.current_price = 0 then 0
  else
    quant 4 ((b.face_value * b.coupon_rate +
      (b.face_value - b.current_price) / b.maturity_years) / b.current_price)

/-- The `Bond.__init__` constructor (computes the initial YTM). -/
def mkBond (bond_id name : String) (face_value coupon_rate maturity_years current_price : ℚ) :
    Bond :=
  let b : Bond :=
    { bond_id, name, face_value, coupon_rate, maturity_years, current_price,
      yield_to_maturity := 0 }
  { b with yield_to_maturity := b.calculate_ytm }

/-- Bond backend (class `DebtBackend`). -/
structure DebtBackend where
  bonds : List (String × Bond)
  base_interest_rate : ℚ
deriving Repr, DecidableEq

/-- `DebtBackend.get_bond_price`. -/
def DebtBackend.get_bond_price (db : DebtBackend) (bond_id : String) : Option ℚ :=
  (lookupD bond_id db.bonds).map Bond.current_price

/-- `DebtBackend._execute_buy`. -/
def DebtBackend.execute_buy (bond_id : String) (usd price : ℚ) (l : Ledger) :
    Bool × Ledger :=
  if l.cash < usd then (false, l)
  else l.add_asset "BOND" bond_id (usd / price) usd

/-- `DebtBackend._execute_sell`. -/
def DebtBackend.execute_sell (pv : Option PriceView) (bond_id : String)
    (usd price : ℚ) (l : Ledger) : Except String (Bool × Ledger) :=
  let bond_units_to_sell := usd / price
  match findAsset "BOND" bond_id l.assets with
  | none => .ok (false, l)
  | some a =>
    if a.quantity < bond_units_to_sell then .ok (false, l)
    else
      (l.remove_asset pv "BOND" bond_id bond_units_to_sell).map
        (fun r => (r.1, r.2.2))

/-- `DebtBackend.execute_allocation`. -/
def DebtBackend.execute_allocation (db : DebtBackend) (pv : Option PriceView)
    (bond_id : String) (usd : ℚ) (l : Ledger) : Except String (Bool × Ledger) :=
  match db.get_bond_price bond_id with
  | none => .ok (false, l)
  | some price =>
    if 0 < usd then .ok (DebtBackend.execute_buy bond_id usd price l)
    else if usd < 0 then DebtBackend.execute_sell pv bond_id |usd| price l
    else .ok (true, l)

/-- The per-bond body of `DebtBackend.update_interest_rates`: shift the
price linearly by approximate duration, clamp into [10%, 200%] of face
value, quantize to 2 fraction digits and recompute YTM. -/
def updatedBond (base r : ℚ) (b : Bond) : Bond :=
  let new_base_rate := r / 100
  let rate_change := new_base_rate - base
  let duration := b.maturity_years
  let price_change_pct := -duration * rate_change
  let new_price := b.current_price * (1 + price_change_pct)
  let min_price := b.face_value * (1/10)
  let max_price := b.face_value * 2
  let b2 := { b with current_price := quant 2 (max min_price (min max_price new_price)) }
  { b2 with yield_to_maturity := b2.calculate_ytm }

/-- `DebtBackend.update_interest_rates`: a missing or `None` rate
(`interest_rate = none`) is a no-op; otherwise store the new base rate and
reprice every bond. -/
def DebtBackend.update_interest_rates (db : DebtBackend) (interest_rate : Option ℚ) :
    DebtBackend :=
  match interest_rate with
  | none => db
  | some r =>
    { base_interest_rate := r / 100,
      bonds := db.bonds.map (fun kv => (kv.1, updatedBond db.base_interest_rate r kv.2)) }

/-- The attribute names defined on class `DebtBackend` in backends.py. -/
def debtBackendAttrs : List String :=
  ["bonds", "base_interest_rate", "get_bond_price", "execute_allocation",
   "_execute_buy", "_execute_sell", "update_interest_rates", "get_all_bonds",
   "_initialize_sample_bonds"]

/-- Python attribute dispatch for the engine call
`debt_backend.apply_interest_rate_shock(rate_change_bps)` (engine.py line
364): no such method is defined on `DebtBackend`, so the call raises
`AttributeError`. -/
def callApplyInterestRateShock (db : DebtBackend) (rate_change_bps : ℤ) :
    Except String DebtBackend :=
  if "apply_interest_rate_shock" ∈ debtBackendAttrs then .ok db
  else .error "AttributeError: DebtBackend object has no attribute apply_interest_rate_shock"

/-! ## Default catalogues (config_loader.py fallback defaults) -/

/-- Default stock catalogue. -/
def defaultStocks : List (String × Stock) :=
  [("AAPL", ⟨"AAPL", 150⟩), ("GOOGL", ⟨"GOOGL", 2500⟩), ("MSFT", ⟨"MSFT", 300⟩),
   ("TSLA", ⟨"TSLA", 800⟩), ("AMZN", ⟨"AMZN", 3200⟩)]

/-- Default project catalogue. -/
def defaultProjects : List (String × Project) :=
  [("P-001", mkProject "P-001" "Tech Startup Alpha" 50000 (25/100) "HIGH" 8 (6/10)),
   ("P-002", mkProject "P-002" "Green Energy Initiative" 75000 (18/100) "MEDIUM" 12 (75/100)),
   ("P-003", mkProject "P-003" "Real Estate Development" 100000 (15/100) "LOW" 16 (85/100)),
   ("P-004", mkProject "P-004" "Biotech Research" 30000 (35/100) "HIGH" 6 (5/10)),
   ("P-005", mkProject "P-005" "Infrastructure Bond" 25000 (8/100) "LOW" 4 (95/100))]

/-- Default bond catalogue. -/
def defaultBonds : List (String × Bond) :=
  [("BOND-001", mkBond "BOND-001" "US Treasury 10Y" 1000 (25/1000) 10 980),
   ("BOND-002", mkBond "BOND-002" "Corporate AAA 5Y" 1000 (35/1000) 5 1020),
   ("BOND-003", mkBond "BOND-003" "Municipal 7Y" 1000 (28/1000) 7 995),
   ("BOND-004", mkBond "BOND-004" "High Yield 3Y" 1000 (65/1000) 3 950),
   ("BOND-005", mkBond "BOND-005" "Treasury TIPS 15Y" 1000 (15/1000) 15 1050)]

/-- The `DebtBackend` built from defaults (base rate 0.03). -/
def defaultDebtBackend : DebtBackend :=
  { bonds := defaultBonds, base_interest_rate := 3/100 }

/-! ## Allocation models (models.py) and router (router.py) -/

/-- The tagged allocation union (`EquityAlloc` / `ProjectAlloc` /
`BondAlloc` / `CashAlloc`), discriminated by `asset_type`. -/
inductive Alloc
  | equity (ticker : String) (usd : ℚ)
  | project (project_id : String) (usd : ℚ)
  | bond (bond_id : String) (usd : ℚ)
  | cashAlloc (usd : ℚ)
deriving Repr, DecidableEq

/-- The `asset_type` discriminator field. -/
def Alloc.asset_type : Alloc → String
  | .equity _ _ => "EQUITY"
  | .project _ _ => "PROJECT"
  | .bond _ _ => "BOND"
  | .cashAlloc _ => "CASH"

/-- A failed allocation with its reason (model `FailedAllocation`). -/
structure FailedAllocation where
  allocation : Alloc
  reason : String
deriving Repr, DecidableEq

/-- An agent action (model `CapitalAllocationAction`). -/
structure CapitalAllocationAction where
  comment : String
  allocations : List Alloc
  cognition_cost : ℚ
deriving Repr, DecidableEq

/-- The behaviour of one backend's `execute_allocation` as seen by the
router: it may mutate the ledger-and-backend state and either return a
success flag or raise an exception (`.error`).  The router is duck-typed
over its backends, so `executeAction` is parametric in these. -/
def BackendExec (σ : Type) : Type := Alloc → σ → (Except String Bool) × σ

/-- One dispatch loop of `AllocationManager.execute_action`: try each item
with the backend, convert a `False` result or an exception into a per-item
failure (the exception message embedded after `errPrefix`), and continue
with the remaining items. -/
def runAllocs {σ : Type} (exec : BackendExec σ) (failReason errPrefix : String) :
    List Alloc → σ → List FailedAllocation × σ
  | [], s => ([], s)
  | a :: rest, s =>
    let r := exec a s
    let here : List FailedAllocation :=
      match r.1 with
      | .ok true => []
      | .ok false => [{ allocation := a, reason := failReason }]
      | .error e => [{ allocation := a, reason := errPrefix ++ e }]
    let r2 := runAllocs exec failReason errPrefix rest r.2
    (here ++ r2.1, r2.2)

/-- `AllocationManager.execute_action`: partition the batch by
`asset_type`, process Equity → Project → Bond (cash allocations are
collected but unprocessed), return every failure.  `pb?` / `db?` model
`AllocationManager`'s optional project and debt backends; the state `σ`
carries the ledger together with all backend state. -/
def executeAction {σ : Type} (tradeExec : BackendExec σ)
    (pb? db? : Option (BackendExec σ)) (action : CapitalAllocationAction)
    (s : σ) : List FailedAllocation × σ :=
  let equity_allocs := action.allocations.filter (fun a => a.asset_type = "EQUITY")
  let project_allocs := action.allocations.filter (fun a => a.asset_type = "PROJECT")
  let bond_allocs := action.allocations.filter (fun a => a.asset_type = "BOND")
  let r1 := runAllocs tradeExec "Trade execution failed" "Trade error: " equity_allocs s
  let r2 :=
    match pb? with
    | some pe => runAllocs pe "Project investment failed" "Project error: " project_allocs r1.2
    | none => ([], r1.2)
  let r3 :=
    match db? with
    | some de => runAllocs de "Bond transaction failed" "Bond error: " bond_allocs r2.2
    | none => ([], r2.2)
  (r1.1 ++ r2.1 ++ r3.1, r3.2)

/-! ## Simulation engine (engine.py) and HODL baseline (hodl_bot.py)

The engine's reward path converts `Decimal` NAVs to binary floats for the
numpy volatility computation; the embedding uses exact real arithmetic for
that segment.  Event-collector emissions (visualization layer) are side
effects with no influence on simulation state and are not modelled. -/

/-- The machine-readable payload of a news event. -/
inductive ImpactData
  | rateChange (bps : ℤ)
  | volatilityLevel (level : String)
  | empty
deriving Repr, DecidableEq

/-- A news event (model `NewsEvent`). -/
structure NewsEvent where
  event_type : String
  description : String
  impact_data : ImpactData
deriving Repr, DecidableEq

/-- The per-tick observation snapshot (model `Observation`). -/
structure Observation where
  tick : ℕ
  cash : ℚ
  nav : ℚ
  holdings : List AssetHolding
  projects_available : List ProjectInfo
  news : List NewsEvent
deriving Repr, DecidableEq

/-- The three shock types (enum `ShockType`). -/
inductive ShockType
  | RATE_HIKE
  | RATE_CUT
  | MARKET_VOLATILITY
deriving Repr, DecidableEq

/-- `self.risk_free_rate = Decimal('0.01')`. -/
def riskFreeRate : ℚ := 1/100
/-- `self.target_volatility = Decimal('0.02')`. -/
def targetVolatility : ℚ := 2/100
/-- `self.lambda_vol = Decimal('1.0')`. -/
def lambdaVol : ℚ := 1
/-- `self.kappa_cost = Decimal('0.01')`. -/
def kappaCost : ℚ := 1/100
/-- `self.kappa_mem = Decimal('0.001')`. -/
def kappaMem : ℚ := 1/1000
/-- `self.shock_probability = Decimal('0.05')`. -/
def shockProbability : ℚ := 5/100
/-- `self.min_ticks_between_shocks = 5`. -/
def minTicksBetweenShocks : ℕ := 5

/-- The engine's per-episode counters and reward state. -/
structure EngineCore where
  current_tick : ℕ
  last_shock_tick : ℕ
  nav_history : List ℚ
  previous_nav : ℚ
deriving Repr, DecidableEq

/-- The backends owned by the engine's `AllocationManager` (project and
debt backends are optional in the source). -/
structure Backends where
  trade : TradeBackend
  projectB : Option ProjectBackend
  debtB : Option DebtBackend
deriving Repr, DecidableEq

/-- `deque(maxlen=10).append`: keep only the trailing `cap` entries. -/
def appendCapped {α : Type} (cap : ℕ) (l : List α) (x : α) : List α :=
  let l2 := l ++ [x]
  l2.drop (l2.length - cap)

/-- Arithmetic mean of a list (as `np.mean`). -/
noncomputable def listMean (l : List ℝ) : ℝ := l.sum / l.length

/-- Population standard deviation (`np.std`, ddof = 0): the square root of
the mean of squared deviations from the mean. -/
noncomputable def popStd (l : List ℝ) : ℝ :=
  Real.sqrt (listMean (l.map (fun x => (x - listMean l) ^ 2)))

/-- `np.diff(nav_array) / nav_array[:-1]`: simple returns. -/
noncomputable def returnsOf (navs : List ℝ) : List ℝ :=
  List.zipWith (fun prev next => (next - prev) / prev) navs navs.tail

/-- `SimulationEngine._calculate_volatility_penalty`: zero with fewer than
two NAVs in history; otherwise the excess of the population standard
deviation of simple returns over `nav_history + [current_nav]` above the
volatility target. -/
noncomputable def volatilityPenalty (nav_history : List ℚ) (current_nav : ℚ) : ℝ :=
  if nav_history.length < 2 then 0
  else
    let nav_values : List ℝ := (nav_history ++ [current_nav]).map (fun q : ℚ => (q : ℝ))
    let returns := returnsOf nav_values
    if returns.length < 2 then 0
    else max 0 (popStd returns - (targetVolatility : ℝ))

/-- `SimulationEngine.calculate_reward`: risk-adjusted NAV change minus the
volatility, cognition and memory penalties; appends the current NAV to the
capped history. -/
noncomputable def calculateReward (core : EngineCore) (current_nav : ℚ)
    (action? : Option CapitalAllocationAction) : ℝ × EngineCore :=
  let delta_nav_adj : ℚ :=
    match core.nav_history.getLast? with
    | some previous_nav => (current_nav - previous_nav) - previous_nav * riskFreeRate
    | none => 0
  let excess_vol_penalty := volatilityPenalty core.nav_history current_nav
  let cognition_cost : ℚ :=
    match action? with
    | some action => kappaCost * action.cognition_cost
    | none => 0
  let memory_cost : ℚ := 0
  let reward : ℝ := (delta_nav_adj : ℝ) - (lambdaVol : ℝ) * excess_vol_penalty -
    (cognition_cost : ℝ) - (memory_cost : ℝ)
  (reward, { core with nav_history := appendCapped 10 core.nav_history current_nav })

/-- The pseudo-random draws one tick can consume, as oracle inputs:
`shock_roll` is `random.random()`, `shock_type` the `random.choice`,
`rate_bps` the `random.randint` basis-point draw, `vol_draws` the
per-ticker `random.uniform(-0.15, 0.15)` draws and `payout_draws` the
project-payout samples. -/
structure TickRng where
  shock_roll : ℚ
  shock_type : ShockType
  rate_bps : ℤ
  vol_draws : String → ℚ
  payout_draws : ℕ → PayoutDraw

/-- `SimulationEngine._apply_rate_shock`: calls the *missing*
`apply_interest_rate_shock` method on the debt backend when one is present
(which raises `AttributeError`), then builds the RATE_SHOCK news event. -/
def applyRateShock (bk : Backends) (bps : ℤ) : Except String (NewsEvent × Backends) :=
  let shock_direction := if 0 < bps then "hike" else "cut"
  let ev : NewsEvent :=
    { event_type := "RATE_SHOCK",
      description := "Interest rate " ++ shock_direction ++ " of " ++
        toString |bps| ++ " basis points",
      impact_data := .rateChange bps }
  match bk.debtB with
  | some db =>
    match callApplyInterestRateShock db bps with
    | .ok db2 => .ok (ev, { bk with debtB := some db2 })
    | .error e => .error e
  | none => .ok (ev, bk)

/-- `SimulationEngine._apply_market_volatility`: perturb every stock with a
truthy (nonzero) price by its uniform draw, floored at $1.00. -/
def applyMarketVolatility (bk : Backends) (draws : String → ℚ) : NewsEvent × Backends :=
  let price_changes : List (String × Option ℚ) :=
    bk.trade.stocks.filterMap (fun kv =>
      match bk.trade.get_price kv.1 with
      | some p =>
        if p ≠ 0 then some (kv.1, some (max 1 (p * (1 + draws kv.1)))) else none
      | none => none)
  ({ event_type := "MARKET_VOLATILITY",
     description := "Market volatility event: significant price movements across equities",
     impact_data := .volatilityLevel "HIGH" },
   { bk with trade := bk.trade.update_prices price_changes })

/-- `SimulationEngine.trigger_shock`: no shock inside the cooldown window
or when the roll exceeds the shock probability; otherwise apply the drawn
shock type. -/
def triggerShock (core : EngineCore) (bk : Backends) (rng : TickRng) :
    Except String (Option NewsEvent × EngineCore × Backends) :=
  if core.current_tick - core.last_shock_tick < minTicksBetweenShocks then
    .ok (none, core, bk)
  else if shockProbability < rng.shock_roll then .ok (none, core, bk)
  else
    let core2 := { core with last_shock_tick := core.current_tick }
    match rng.shock_type with
    | .RATE_HIKE => (applyRateShock bk rng.rate_bps).map (fun r => (some r.1, core2, r.2))
    | .RATE_CUT => (applyRateShock bk rng.rate_bps).map (fun r => (some r.1, core2, r.2))
    | .MARKET_VOLATILITY =>
      let r := applyMarketVolatility bk rng.vol_draws
      .ok (some r.1, core2, r.2)

/-- The trade backend's `execute_allocation` wired into the router state
(the ledger's price provider is the live trade backend).  Only EQUITY
items are dispatched here. -/
def tradeExecReal : BackendExec (Ledger × Backends) := fun a s =>
  match a with
  | .equity ticker usd =>
    match s.2.trade.execute_allocation (some (priceViewOfTrade s.2.trade)) ticker usd s.1 with
    | .ok r => (.ok r.1, (r.2, s.2))
    | .error e => (.error e, s)
  | _ => (.ok false, s)

/-- The project backend's `execute_allocation` wired into the router
state. -/
def projectExecReal : BackendExec (Ledger × Backends) := fun a s =>
  match s.2.projectB with
  | none => (.ok false, s)
  | some pb =>
    match a with
    | .project pid usd =>
      let r := pb.execute_allocation pid usd s.1
      (.ok r.1, (r.2.2, { s.2 with projectB := some r.2.1 }))
    | _ => (.ok false, s)

/-- The debt backend's `execute_allocation` wired into the router state. -/
def debtExecReal : BackendExec (Ledger × Backends) := fun a s =>
  match s.2.debtB with
  | none => (.ok false, s)
  | some db =>
    match a with
    | .bond bid usd =>
      match db.execute_allocation (some (priceViewOfTrade s.2.trade)) bid usd s.1 with
      | .ok r => (.ok r.1, (r.2, s.2))
      | .error e => (.error e, s)
    | _ => (.ok false, s)

/-- `AllocationManager.execute_action` instantiated with the engine's real
backends. -/
def routerStep (action : CapitalAllocationAction) (l : Ledger) (bk : Backends) :
    List FailedAllocation × Ledger × Backends :=
  let pbE : Option (BackendExec (Ledger × Backends)) :=
    bk.projectB.map (fun _ => projectExecReal)
  let dbE : Option (BackendExec (Ledger × Backends)) :=
    bk.debtB.map (fun _ => debtExecReal)
  let r := executeAction tradeExecReal pbE dbE action (l, bk)
  (r.1, r.2.1, r.2.2)

/-- The project-lifecycle phase of a tick: advance the (optional) project
backend against the given ledger. -/
def projectPhase (bk : Backends) (pv : Option PriceView) (draws : ℕ → PayoutDraw)
    (l : Ledger) : Except String (List String × Backends × Ledger) :=
  match bk.projectB with
  | some pb =>
    match pb.tick pv draws l with
    | .ok r => .ok (r.1, { bk with projectB := some r.2.1 }, r.2.2)
    | .error e => .error e
  | none => .ok ([], bk, l)

/-- The result of one engine tick: the `(Observation, reward, terminated,
truncated, info)` return value together with the mutated engine state. -/
structure TickResult where
  obs : Observation
  reward : ℝ
  terminated : Bool
  truncated : Bool
  failed_allocations : List FailedAllocation
  core : EngineCore
  ledger : Ledger
  backends : Backends

/-- `SimulationEngine._tick_main`: increment the tick counter, possibly
trigger one shock, advance the project lifecycle, route the action,
compute the reward and assemble the observation.  An exception anywhere
(in particular the `AttributeError` of a rate shock, or a ledger
`DivisionByZero` in the project lifecycle) propagates. -/
noncomputable def tickMain (rng : TickRng) (action? : Option CapitalAllocationAction)
    (core : EngineCore) (l : Ledger) (bk : Backends) :
    Except String TickResult :=
  let core1 := { core with current_tick := core.current_tick + 1 }
  match triggerShock core1 bk rng with
  | .error e => .error e
  | .ok (shock?, core2, bk1) =>
    let pv : Option PriceView := some (priceViewOfTrade bk1.trade)
    match projectPhase bk1 pv rng.payout_draws l with
    | .error e => .error e
    | .ok (project_news, bk2, l1) =>
      let news_events := shock?.toList ++ project_news.map
        (fun s => { event_type := "PROJECT_COMPLETION", description := s,
                    impact_data := .empty : NewsEvent })
      let ares :=
        match action? with
        | some action => routerStep action l1 bk2
        | none => ([], l1, bk2)
      let failed_allocations := ares.1
      let l2 := ares.2.1
      let bk3 := ares.2.2
      let pv2 : Option PriceView := some (priceViewOfTrade bk3.trade)
      let rres := calculateReward core2 (l2.get_nav pv2) action?
      let core3 := rres.2
      let projects_available :=
        match bk3.projectB with
        | some pb => pb.get_available_projects
        | none => []
      let obs : Observation :=
        { tick := core3.current_tick, cash := l2.cash, nav := l2.get_nav pv2,
          holdings := l2.get_portfolio_holdings pv2,
          projects_available := projects_available, news := news_events }
      let terminated := decide (100 ≤ core3.current_tick)
      .ok { obs := obs, reward := rres.1, terminated := terminated,
            truncated := false, failed_allocations := failed_allocations,
            core := core3, ledger := l2, backends := bk3 }

/-- The HODL baseline policy state (class `HODLBot`). -/
structure HODLBot where
  initial_cash : ℚ
  is_hodling : Bool
  hodl_start_tick : ℕ
  pre_shock_nav : ℚ
deriving Repr, DecidableEq

/-- `HODLBot.should_hodl`: any shock-type news event. -/
def HODLBot.should_hodl (obs : Observation) : Bool :=
  obs.news.any (fun e =>
    e.event_type == "RATE_SHOCK" || e.event_type == "MARKET_VOLATILITY")

/-- `HODLBot.get_action`: freeze permanently once a shock is seen; before
that, one diversifying buy on tick 1 with enough cash, else no action. -/
def HODLBot.get_action (bot : HODLBot) (obs : Observation) :
    HODLBot × Option CapitalAllocationAction :=
  let bot1 :=
    if ¬bot.is_hodling ∧ HODLBot.should_hodl obs then
      { bot with is_hodling := true, hodl_start_tick := obs.tick,
                 pre_shock_nav := obs.nav }
    else bot
  if bot1.is_hodling then (bot1, none)
  else if obs.tick ≤ 5 ∧ 10000 < obs.cash then
    if obs.tick = 1 then
      (bot1, some { comment := "HODL Bot initial diversification",
                    allocations := [.equity "AAPL" (obs.cash * (2/10))],
                    cognition_cost := 1/2 })
    else (bot1, none)
  else (bot1, none)

/-- The parallel HODL simulation owned by the engine when the comparison is
enabled: its own bot, engine core and ledger.  It shares the pricing
backends with the primary engine (`_initialize_hodl_comparison` passes the
same backend objects to the HODL `AllocationManager`). -/
structure HodlSim where
  bot : HODLBot
  core : EngineCore
  ledger : Ledger
deriving Repr, DecidableEq

/-- The full simulation state: primary engine core and ledger, the shared
backends, and the optional HODL comparison. -/
structure Sim where
  core : EngineCore
  ledger : Ledger
  backends : Backends
  hodl? : Option HodlSim

/-- `SimulationEngine.tick`: run the main tick, then (when the HODL
comparison is enabled) obtain the HODL bot's action from the main
observation and run the HODL engine's tick against the *shared* backends.
The adaptability measurer only reads NAVs and is not modelled. -/
noncomputable def SimulationEngine.tick (rng hodlRng : TickRng)
    (action? : Option CapitalAllocationAction) (sim : Sim) :
    Except String (TickResult × Sim) :=
  match tickMain rng action? sim.core sim.ledger sim.backends with
  | .error e => .error e
  | .ok r =>
    match sim.hodl? with
    | none =>
      .ok (r, { core := r.core, ledger := r.ledger,
                backends := r.backends, hodl? := none })
    | some h =>
      let ba := h.bot.get_action r.obs
      match tickMain hodlRng ba.2 h.core h.ledger r.backends with
      | .error e => .error e
      | .ok hr =>
        .ok (r, { core := r.core, ledger := r.ledger,
                  backends := hr.backends,
                  hodl? := some { bot := ba.1, core := hr.core,
                                  ledger := hr.ledger } })

/-! ## Structural lemmas about the dict and asset-list helpers -/

lemma lookupD_updateD_self {α : Type} (k : String) (f : α → α) (l : List (String × α)) :
    lookupD k (updateD k f l) = (lookupD k l).map f := by
  induction l with
  | nil => rfl
  | cons kv rest ih =>
    by_cases h : kv.1 = k
    · simp [lookupD, updateD, h]
    · simp [lookupD, updateD, h, ih]

lemma updateD_keys {α : Type} (k : String) (f : α → α) (l : List (String × α)) :
    (updateD k f l).map Prod.fst = l.map Prod.fst := by
  induction l with
  | nil => rfl
  | cons kv rest ih =>
    by_cases h : kv.1 = k
    · simp [updateD, h]
    · simp [updateD, h, ih]

lemma mem_updateD {α : Type} {k : String} {f : α → α} {l : List (String × α)}
    {kv : String × α} (h : kv ∈ updateD k f l) :
    kv ∈ l ∨ ∃ v, (k, v) ∈ l ∧ kv = (k, f v) := by
  induction l with
  | nil => simp [updateD] at h
  | cons kv0 rest ih =>
    by_cases hk : kv0.1 = k
    · simp only [updateD, hk, if_true, List.mem_cons] at h
      rcases h with h | h
      · right; exact ⟨kv0.2, by simp [← hk, h]⟩
      · left; simp [h]
    · simp only [updateD, hk, if_false, List.mem_cons] at h
      rcases h with h | h
      · left; simp [h]
      · rcases ih h with h2 | ⟨v, hv, he⟩
        · left; simp [h2]
        · right; exact ⟨v, by simp [hv], he⟩

lemma lookupD_of_mem_nodup {α : Type} {k : String} {v : α} {l : List (String × α)}
    (hm : (k, v) ∈ l) (hnd : (l.map Prod.fst).Nodup) : lookupD k l = some v := by
  induction l with
  | nil => simp at hm
  | cons kv rest ih =>
    simp only [List.map_cons, List.nodup_cons] at hnd
    rcases List.mem_cons.mp hm with h | h
    · simp [lookupD, ← h]
    · have hk : kv.1 ≠ k := by
        intro he
        exact hnd.1 (he ▸ (List.mem_map.mpr ⟨(k, v), h, rfl⟩))
      simp [lookupD, hk, ih h hnd.2]

lemma findAsset_cons (t id : String) (a0 : Asset) (rest : List Asset) :
    findAsset t id (a0 :: rest) =
      if a0.asset_type = t ∧ a0.identifier = id then some a0
      else findAsset t id rest := rfl

lemma updateFirst_cons (t id : String) (f : Asset → Asset) (a0 : Asset)
    (rest : List Asset) :
    updateFirst t id f (a0 :: rest) =
      if a0.asset_type = t ∧ a0.identifier = id then f a0 :: rest
      else a0 :: updateFirst t id f rest := rfl

lemma dropFirst_cons (t id : String) (a0 : Asset) (rest : List Asset) :
    dropFirst t id (a0 :: rest) =
      if a0.asset_type = t ∧ a0.identifier = id then rest
      else a0 :: dropFirst t id rest := rfl

lemma findAsset_props {t id : String} {l : List Asset} {a : Asset}
    (h : findAsset t id l = some a) :
    a ∈ l ∧ a.asset_type = t ∧ a.identifier = id := by
  induction l with
  | nil => simp [findAsset] at h
  | cons a0 rest ih =>
    rw [findAsset_cons] at h
    by_cases hm : a0.asset_type = t ∧ a0.identifier = id
    · rw [if_pos hm] at h
      injection h with h
      subst h
      exact ⟨List.mem_cons_self _ _, hm.1, hm.2⟩
    · rw [if_neg hm] at h
      rcases ih h with ⟨h1, h2, h3⟩
      exact ⟨List.mem_cons_of_mem _ h1, h2, h3⟩

lemma findAsset_updateFirst_self {t id : String} (f : Asset → Asset)
    {l : List Asset} {a : Asset} (h : findAsset t id l = some a)
    (hf : (f a).asset_type = t ∧ (f a).identifier = id) :
    findAsset t id (updateFirst t id f l) = some (f a) := by
  induction l with
  | nil => simp [findAsset] at h
  | cons a0 rest ih =>
    rw [findAsset_cons] at h
    by_cases hm : a0.asset_type = t ∧ a0.identifier = id
    · rw [if_pos hm] at h
      injection h with h
      subst h
      rw [updateFirst_cons, if_pos hm, findAsset_cons, if_pos hf]
    · rw [if_neg hm] at h
      rw [updateFirst_cons, if_neg hm, findAsset_cons, if_neg hm]
      exact ih h

lemma findAsset_append_single_none {t id : String} {l : List Asset} (a : Asset)
    (h : findAsset t id l = none) (ha : a.asset_type = t ∧ a.identifier = id) :
    findAsset t id (l ++ [a]) = some a := by
  induction l with
  | nil =>
    show (if a.asset_type = t ∧ a.identifier = id then some a else findAsset t id []) = some a
    rw [if_pos ha]
  | cons a0 rest ih =>
    rw [findAsset_cons] at h
    by_cases hm : a0.asset_type = t ∧ a0.identifier = id
    · rw [if_pos hm] at h; exact absurd h (by simp)
    · rw [if_neg hm] at h
      rw [List.cons_append, findAsset_cons, if_neg hm]
      exact ih h

lemma navContribution_project (pv : Option PriceView) (a : Asset)
    (h : a.asset_type = "PROJECT") : navContribution pv a = 0 := by
  cases pv with
  | none => rfl
  | some v => simp [navContribution, h]

lemma navsum_updateFirst_zero (pv : Option PriceView) (t id : String)
    (f : Asset → Asset) (l : List Asset)
    (hz : ∀ a : Asset, a.asset_type = t → a.identifier = id →
      navContribution pv (f a) = navContribution pv a) :
    ((updateFirst t id f l).map (navContribution pv)).sum =
      (l.map (navContribution pv)).sum := by
  induction l with
  | nil => rfl
  | cons a0 rest ih =>
    by_cases hm : a0.asset_type = t ∧ a0.identifier = id
    · simp [updateFirst, hm, hz a0 hm.1 hm.2]
    · simp [updateFirst, hm, ih]

/-- Total held quantity of one (class, id) across the asset list. -/
def totalQuantity (t id : String) (assets : List Asset) : ℚ :=
  ((assets.filter (fun a => a.asset_type = t ∧ a.identifier = id)).map
    Asset.quantity).sum

lemma totalQuantity_cons (t id : String) (a0 : Asset) (rest : List Asset) :
    totalQuantity t id (a0 :: rest) =
      (if a0.asset_type = t ∧ a0.identifier = id then a0.quantity else 0) +
        totalQuantity t id rest := by
  by_cases hm : a0.asset_type = t ∧ a0.identifier = id
  · simp only [totalQuantity, List.filter_cons, decide_eq_true_eq]
    rw [if_pos hm, if_pos hm]
    simp
  · simp only [totalQuantity, List.filter_cons, decide_eq_true_eq]
    rw [if_neg hm, if_neg hm]
    simp

lemma totalQuantity_dropFirst {t id : String} {l : List Asset} {a : Asset}
    (h : findAsset t id l = some a) :
    totalQuantity t id (dropFirst t id l) = totalQuantity t id l - a.quantity := by
  induction l with
  | nil => simp [findAsset] at h
  | cons a0 rest ih =>
    rw [findAsset_cons] at h
    by_cases hm : a0.asset_type = t ∧ a0.identifier = id
    · rw [if_pos hm] at h
      injection h with h
      subst h
      rw [dropFirst_cons, if_pos hm, totalQuantity_cons, if_pos hm]
      ring
    · rw [if_neg hm] at h
      rw [dropFirst_cons, if_neg hm, totalQuantity_cons, if_neg hm,
        totalQuantity_cons, if_neg hm, ih h]
      ring

lemma totalQuantity_updateFirst {t id : String} (f : Asset → Asset)
    {l : List Asset} {a : Asset} (h : findAsset t id l = some a)
    (hf : (f a).asset_type = t ∧ (f a).identifier = id) :
    totalQuantity t id (updateFirst t id f l) =
      totalQuantity t id l - a.quantity + (f a).quantity := by
  induction l with
  | nil => simp [findAsset] at h
  | cons a0 rest ih =>
    rw [findAsset_cons] at h
    by_cases hm : a0.asset_type = t ∧ a0.identifier = id
    · rw [if_pos hm] at h
      injection h with h
      subst h
      rw [updateFirst_cons, if_pos hm, totalQuantity_cons, if_pos hf,
        totalQuantity_cons, if_pos hm]
      ring
    · rw [if_neg hm] at h
      rw [updateFirst_cons, if_neg hm, totalQuantity_cons, if_neg hm,
        totalQuantity_cons, if_neg hm, ih h]
      ring

lemma totalQuantity_append_single (t id : String) (l : List Asset) (a : Asset)
    (ha : a.asset_type = t ∧ a.identifier = id) :
    totalQuantity t id (l ++ [a]) = totalQuantity t id l + a.quantity := by
  simp only [totalQuantity, List.filter_append, List.filter_cons,
    decide_eq_true_eq, List.filter_nil]
  rw [if_pos ha]
  simp

/-- Anatomy of `Ledger.remove_asset` on the cost-basis fallback path: for
an asset class that is neither EQUITY nor BOND (in particular PROJECT), the
per-unit price is the average cost basis and proceeds are credited raw. -/
lemma remove_asset_fallback_spec {pv : Option PriceView} {l : Ledger}
    {t id : String} {q : ℚ} {a : Asset}
    (hf : findAsset t id l.assets = some a)
    (hqty : q ≤ a.quantity) (hpos : 0 < a.quantity)
    (ht1 : t ≠ "EQUITY") (ht2 : t ≠ "BOND") :
    l.remove_asset pv t id q =
      .ok (true, a.cost_basis / a.quantity * q,
        { _cash := l._cash + a.cost_basis / a.quantity * q,
          assets :=
            if a.quantity - q ≤ 1/1000000 then dropFirst t id l.assets
            else
              updateFirst t id
                (fun b => { b with quantity := a.quantity - q, cost_basis := a.cost_basis - a.cost_basis / a.quantity * q })
                l.assets }) := by
  unfold Ledger.remove_asset
  simp only [hf]
  rw [if_neg (not_lt.mpr hqty), if_pos hpos, if_neg hpos.ne']
  cases pv with
  | none => rfl
  | some v => simp [ht1, ht2]

/-- One `ProjectBackend.tick` on a backend holding no records: no events,
no state change. -/
lemma projTick_nil {pb : ProjectBackend} (pv : Option PriceView)
    (draws : ℕ → PayoutDraw) (l : Ledger)
    (hinv : pb.agent_investments = []) :
    pb.tick pv draws l = .ok ([], pb, l) := by
  have he : ({ pb with agent_investments := ([] : List ProjectInvestment) }) = pb := by
    rw [← hinv]
  unfold ProjectBackend.tick
  rw [hinv]
  unfold projTickGo
  simp only [Except.map, he]

/-- One `ProjectBackend.tick` on a backend holding a single record with at
least two weeks remaining: the countdown decrements, nothing else
happens. -/
lemma projTick_silent_single {pb : ProjectBackend} (pv : Option PriceView)
    (draws : ℕ → PayoutDraw) (l : Ledger) {inv : ProjectInvestment}
    (hinv : pb.agent_investments = [inv]) (hw : 2 ≤ inv.weeks_remaining) :
    pb.tick pv draws l =
      .ok ([], { pb with agent_investments :=
        [{ inv with weeks_remaining := inv.weeks_remaining - 1 }] }, l) := by
  unfold ProjectBackend.tick
  rw [hinv]
  unfold projTickGo
  rw [if_neg (by simp only []; omega)]
  unfold projTickGo
  rfl

/-- One `ProjectBackend.tick` on a backend holding a single record in its
final week, with a matching PROJECT position of quantity at least 1: the
record completes, 1.0 unit is removed at cost-basis valuation, cash is
credited with proceeds plus payout, and the completion news is emitted. -/
lemma projTick_complete_single {pb : ProjectBackend} (pv : Option PriceView)
    (draws : ℕ → PayoutDraw) (l : Ledger) {inv : ProjectInvestment} {a : Asset}
    (hinv : pb.agent_investments = [inv]) (hw : inv.weeks_remaining = 1)
    (hfa : findAsset "PROJECT" inv.project_id l.assets = some a)
    (hq1 : 1 ≤ a.quantity) :
    pb.tick pv draws l =
      .ok (completionEvent pb { inv with weeks_remaining := 0 }
             (pb.calculate_project_payout { inv with weeks_remaining := 0 } (draws 0)),
           { pb with agent_investments := [] },
           { _cash := quant 2 (quant 2 (l._cash + a.cost_basis / a.quantity) +
               pb.calculate_project_payout { inv with weeks_remaining := 0 } (draws 0)),
             assets :=
               if a.quantity - 1 ≤ 1/1000000 then
                 dropFirst "PROJECT" inv.project_id l.assets
               else
                 updateFirst "PROJECT" inv.project_id
                   (fun b => { b with quantity := a.quantity - 1, cost_basis := a.cost_basis - a.cost_basis / a.quantity * 1 })
                   l.assets }) := by
  have hpos : 0 < a.quantity := lt_of_lt_of_le zero_lt_one hq1
  have hrm := @remove_asset_fallback_spec pv l "PROJECT" inv.project_id 1 a
    hfa hq1 hpos (by simp) (by simp)
  unfold ProjectBackend.tick
  rw [hinv]
  unfold projTickGo
  rw [if_pos (by simp only [hw]; omega)]
  rw [show ({ inv with weeks_remaining := inv.weeks_remaining - 1 }) =
      ({ inv with weeks_remaining := 0 } : ProjectInvestment) by
    simp only [hw, sub_self]]
  simp only [bind, Except.bind, hrm]
  unfold projTickGo
  simp only [Except.map, Ledger.setCash, Ledger.cash, List.append_nil, mul_one]

/-! ## Claim C5: project funding cap -/

/-- A project backend whose only project has been fully funded
(`remaining_funding = 0`), as reached after investing the full required
amount. -/
def pbFullyFunded : ProjectBackend :=
  { available_projects :=
      [("P-001", { mkProject "P-001" "Tech Startup Alpha" 50000 (25/100) "HIGH" 8 (6/10)
                   with remaining_funding := 0 })],
    agent_investments := [] }

/-- A ledger holding $1000 cash and no positions. -/
def ledgerC5 : Ledger := { _cash := 1000, assets := [] }

/-- The default project catalogue with no outstanding investments. -/
def defaultProjectBackend : ProjectBackend :=
  { available_projects := defaultProjects, agent_investments := [] }

/-- A ledger holding $100000 cash and no positions. -/
def ledger100k : Ledger := { _cash := 100000, assets := [] }

/-- C5, counterexample: a request of $100 against a project whose
`remaining_funding` is 0 exceeds the remaining funding and is fully cash
covered, yet `execute_allocation` fails instead of succeeding with an
investment of `remaining_funding`, contradicting the claim as stated. -/
theorem C5_counterexample :
    (lookupD "P-001" pbFullyFunded.available_projects).map Project.remaining_funding
        = some 0 ∧
    (100 : ℚ) ≤ ledgerC5.cash ∧
    (pbFullyFunded.execute_allocation "P-001" 100 ledgerC5).1 = false := by
  refine ⟨rfl, ?_, rfl⟩
  simp only [ledgerC5, Ledger.cash, quant, rhe]
  norm_num

/-- C5, amended: for every project allocation whose requested USD amount
exceeds the project's *positive* remaining funding, given cash at least the
requested amount, the allocation succeeds and invests exactly
`remaining_funding` (debiting cash and decrementing `remaining_funding` by
that amount); and a project whose `remaining_funding` has reached 0 does
not appear in `get_available_projects()`. -/
theorem C5_theorem :
    (∀ (pb : ProjectBackend) (pid : String) (project : Project) (usd : ℚ) (l : Ledger),
      lookupD pid pb.available_projects = some project →
      0 < project.remaining_funding →
      project.remaining_funding < usd →
      usd ≤ l.cash →
      (pb.execute_allocation pid usd l).1 = true ∧
      (pb.execute_allocation pid usd l).2.2._cash = l._cash - project.remaining_funding ∧
      (lookupD pid (pb.execute_allocation pid usd l).2.1.available_projects).map
          Project.remaining_funding = some 0 ∧
      (pb.execute_allocation pid usd l).2.1.agent_investments =
        pb.agent_investments ++
          [{ project_id := pid, amount_invested := project.remaining_funding,
             weeks_remaining := project.weeks_to_completion }]) ∧
    (∀ (pb : ProjectBackend) (pid : String) (project : Project),
      (∀ kv ∈ pb.available_projects, kv.2.project_id = kv.1) →
      (pb.available_projects.map Prod.fst).Nodup →
      lookupD pid pb.available_projects = some project →
      project.remaining_funding ≤ 0 →
      pid ∉ pb.get_available_projects.map ProjectInfo.project_id) := by
  constructor
  · intro pb pid project usd l hfind hrem hexceed hcash
    have hmin : min usd project.remaining_funding = project.remaining_funding :=
      min_eq_right (le_of_lt hexceed)
    have hcost : project.remaining_funding ≤ l.cash := le_trans (le_of_lt hexceed) hcash
    have hadd1 : (l.add_asset "PROJECT" pid 1 project.remaining_funding).1 = true := by
      unfold Ledger.add_asset
      rw [if_neg (not_lt.mpr hcost)]
    have hadd2 : (l.add_asset "PROJECT" pid 1 project.remaining_funding).2._cash
        = l._cash - project.remaining_funding := by
      unfold Ledger.add_asset
      rw [if_neg (not_lt.mpr hcost)]
    have hexec : pb.execute_allocation pid usd l =
        (true,
         { available_projects :=
             updateD pid
               (fun p => { p with remaining_funding := p.remaining_funding - project.remaining_funding })
               pb.available_projects,
           agent_investments := pb.agent_investments ++
             [{ project_id := pid,
                amount_invested := project.remaining_funding,
                weeks_remaining := project.weeks_to_completion }] },
         (l.add_asset "PROJECT" pid 1 project.remaining_funding).2) := by
      unfold ProjectBackend.execute_allocation
      simp only [hfind]
      rw [if_neg (not_le.mpr hrem), if_neg (not_lt.mpr hcash)]
      simp only [hmin, hadd1]
      simp
    refine ⟨by rw [hexec], ?_, ?_, ?_⟩
    · rw [hexec]
      exact hadd2
    · rw [hexec]
      simp only [lookupD_updateD_self, hfind, Option.map_map, Option.map_some]
      simp
    · rw [hexec]
  · intro pb pid project hkeys hnodup hfind hrem hmem
    unfold ProjectBackend.get_available_projects at hmem
    rw [List.mem_map] at hmem
    obtain ⟨info, hinfo, hid⟩ := hmem
    rw [List.mem_map] at hinfo
    obtain ⟨kv, hkvf, hkve⟩ := hinfo
    rw [List.mem_filter] at hkvf
    obtain ⟨hkvm, hkvpos⟩ := hkvf
    have hpid : kv.2.project_id = pid := by rw [← hid, ← hkve]
    have hkey : kv.1 = pid := by rw [← hkeys kv hkvm, hpid]
    have hl : lookupD pid pb.available_projects = some kv.2 := by
      rw [← hkey]
      exact lookupD_of_mem_nodup (by simpa using hkvm) hnodup
    rw [hfind] at hl
    injection hl with hl
    rw [hl] at hrem
    simp only [decide_eq_true_eq] at hkvpos
    linarith

/-- C5, witness: the amended theorem applied to the default catalogue ---
over-investing $30000 into P-005 (remaining $25000) with $100000 cash
succeeds and drains the project, and the fully funded P-001 of
`pbFullyFunded` is absent from the available list. -/
theorem C5_witness :
    ((defaultProjectBackend.execute_allocation "P-005" 30000 ledger100k).1 = true ∧
     (defaultProjectBackend.execute_allocation "P-005" 30000 ledger100k).2.2._cash
        = 75000 ∧
     "P-001" ∉ pbFullyFunded.get_available_projects.map ProjectInfo.project_id) := by
  have h1 := C5_theorem.1 defaultProjectBackend "P-005"
    (mkProject "P-005" "Infrastructure Bond" 25000 (8/100) "LOW" 4 (95/100))
    30000 ledger100k rfl (by simp [mkProject])
    (by simp only [mkProject]; norm_num)
    (by simp only [ledger100k, Ledger.cash, quant, rhe]; norm_num)
  have h2 := C5_theorem.2 pbFullyFunded "P-001"
    ({ mkProject "P-001" "Tech Startup Alpha" 50000 (25/100) "HIGH" 8 (6/10)
       with remaining_funding := 0 })
    (by simp [pbFullyFunded, mkProject]) (by simp [pbFullyFunded]) rfl (by simp)
  refine ⟨h1.1, ?_, h2⟩
  rw [h1.2.1]
  simp only [ledger100k, mkProject]
  norm_num

/-! ## Claim C10: PROJECT positions in NAV -/

/-- Anatomy of a successful `ProjectBackend.execute_allocation`. -/
lemma projectExec_spec {pb : ProjectBackend} {pid : String} {project : Project}
    {usd : ℚ} {l : Ledger}
    (hfind : lookupD pid pb.available_projects = some project)
    (hrem : 0 < project.remaining_funding)
    (hcash : usd ≤ l.cash) :
    pb.execute_allocation pid usd l =
      (true,
       { available_projects :=
           updateD pid
             (fun p => { p with remaining_funding := p.remaining_funding - min usd project.remaining_funding })
             pb.available_projects,
         agent_investments := pb.agent_investments ++
           [{ project_id := pid,
              amount_invested := min usd project.remaining_funding,
              weeks_remaining := project.weeks_to_completion }] },
       { _cash := l._cash - min usd project.remaining_funding,
         assets := addAssets "PROJECT" pid 1 (min usd project.remaining_funding) l.assets }) := by
  have hcost : min usd project.remaining_funding ≤ l.cash :=
    le_trans (min_le_left _ _) hcash
  have hadd : l.add_asset "PROJECT" pid 1 (min usd project.remaining_funding) =
      (true, { _cash := l._cash - min usd project.remaining_funding,
               assets := addAssets "PROJECT" pid 1 (min usd project.remaining_funding) l.assets }) := by
    unfold Ledger.add_asset
    rw [if_neg (not_lt.mpr hcost)]
  unfold ProjectBackend.execute_allocation
  simp only [hfind]
  rw [if_neg (not_le.mpr hrem), if_neg (not_lt.mpr hcash)]
  simp only [hadd]
  simp

/-- Adding a PROJECT position (fresh or merged) never changes the NAV
asset value: PROJECT positions are excluded from NAV. -/
lemma navsum_addAssets_project (pv : Option PriceView) (pid : String)
    (q cost : ℚ) (assets : List Asset) :
    ((addAssets "PROJECT" pid q cost assets).map (navContribution pv)).sum =
      (assets.map (navContribution pv)).sum := by
  unfold addAssets
  cases hf : findAsset "PROJECT" pid assets with
  | none =>
    simp only [List.map_append, List.sum_append, List.map_cons, List.map_nil,
      List.sum_cons, List.sum_nil]
    rw [navContribution_project pv _ rfl]
    ring
  | some a =>
    exact navsum_updateFirst_zero pv "PROJECT" pid _ assets
      (fun b hb _ => by
        rw [navContribution_project pv b hb]
        exact navContribution_project pv _ hb)

/-- A ledger whose internal cash sits at a half cent ($99.995), as left
behind by an equity sale with sub-cent proceeds. -/
def ledgerHalfCent : Ledger := { _cash := 99995/1000, assets := [] }

/-- C10, counterexample: investing A = $0.01 into P-001 from internal cash
$99.995 succeeds, but `get_nav` falls from $100.00 to $99.98 — a decrease
of $0.02, not exactly A, because half-even cent rounding of the cash
property moves by two cents across the half-cent point. -/
theorem C10_counterexample :
    (defaultProjectBackend.execute_allocation "P-001" (1/100) ledgerHalfCent).1 = true ∧
    Ledger.get_nav none ledgerHalfCent = 100 ∧
    Ledger.get_nav none
      (defaultProjectBackend.execute_allocation "P-001" (1/100) ledgerHalfCent).2.2
      = 9998/100 := by
  have hfind : lookupD "P-001" defaultProjectBackend.available_projects =
      some (mkProject "P-001" "Tech Startup Alpha" 50000 (25/100) "HIGH" 8 (6/10)) := rfl
  have hrem : (0:ℚ) <
      (mkProject "P-001" "Tech Startup Alpha" 50000 (25/100) "HIGH" 8 (6/10)).remaining_funding := by
    simp [mkProject]
  have hcash : (1/100 : ℚ) ≤ ledgerHalfCent.cash := by
    simp only [ledgerHalfCent, Ledger.cash, quant, rhe]
    norm_num
  have hspec := projectExec_spec hfind hrem hcash
  have hmin : min ((1:ℚ)/100)
      (mkProject "P-001" "Tech Startup Alpha" 50000 (25/100) "HIGH" 8 (6/10)).remaining_funding
      = 1/100 := by
    apply min_eq_left
    simp only [mkProject]
    norm_num
  refine ⟨by rw [hspec], ?_, ?_⟩
  · simp only [Ledger.get_nav, Ledger.cash, ledgerHalfCent, List.map_nil,
      List.sum_nil, quant, rhe]
    norm_num
  · rw [hspec]
    simp only [hmin, ledgerHalfCent, Ledger.get_nav, Ledger.cash,
      addAssets, findAsset, List.map_nil, List.sum_nil, List.nil_append,
      List.map_cons, List.sum_cons, navContribution, quant, rhe]
    norm_num

/-- C10, amended: every PROJECT position contributes zero to NAV, and a
successful project investment of a whole-cent amount A = k/100 decreases
`get_nav()` by exactly A provided the pre-investment internal cash and the
portfolio's priced market value are themselves whole-cent amounts (as after
reset; in general the decrease is A up to cent-level half-even rounding). -/
theorem C10_theorem :
    (∀ (pv : Option PriceView) (a : Asset), a.asset_type = "PROJECT" →
        navContribution pv a = 0) ∧
    (∀ (pb : ProjectBackend) (pid : String) (project : Project) (k : ℕ)
       (i j : ℤ) (l : Ledger) (pv : Option PriceView),
      lookupD pid pb.available_projects = some project →
      0 < project.remaining_funding →
      (k : ℚ)/100 ≤ project.remaining_funding →
      (k : ℚ)/100 ≤ l.cash →
      l._cash = (i : ℚ)/100 →
      (l.assets.map (navContribution pv)).sum = (j : ℚ)/100 →
      (pb.execute_allocation pid ((k : ℚ)/100) l).1 = true ∧
      Ledger.get_nav pv (pb.execute_allocation pid ((k : ℚ)/100) l).2.2 =
        Ledger.get_nav pv l - (k : ℚ)/100) := by
  constructor
  · exact navContribution_project
  · intro pb pid project k i j l pv hfind hrem hk hcash hwcash hwsum
    have hspec := projectExec_spec hfind hrem hcash
    have hmin : min ((k:ℚ)/100) project.remaining_funding = (k:ℚ)/100 :=
      min_eq_left hk
    have hq1 : quant 2 ((i : ℚ)/100) = (i : ℚ)/100 := by
      have := quant_int_div 2 i
      norm_num at this ⊢
      exact this
    have hq2 : quant 2 (((i - k : ℤ) : ℚ)/100) = ((i - k : ℤ) : ℚ)/100 := by
      have := quant_int_div 2 (i - k)
      norm_num at this ⊢
      exact this
    have hq3 : quant 2 (((i + j : ℤ) : ℚ)/100) = ((i + j : ℤ) : ℚ)/100 := by
      have := quant_int_div 2 (i + j)
      norm_num at this ⊢
      exact this
    have hq4 : quant 2 (((i - k + j : ℤ) : ℚ)/100) = ((i - k + j : ℤ) : ℚ)/100 := by
      have := quant_int_div 2 (i - k + j)
      norm_num at this ⊢
      exact this
    refine ⟨by rw [hspec], ?_⟩
    rw [hspec]
    simp only [Ledger.get_nav, Ledger.cash, hmin]
    rw [navsum_addAssets_project]
    rw [hwcash, hwsum]
    have e1 : (i : ℚ)/100 - (k : ℚ)/100 = ((i - k : ℤ) : ℚ)/100 := by
      push_cast; ring
    have e2 : ((i - k : ℤ) : ℚ)/100 + (j : ℚ)/100 = ((i - k + j : ℤ) : ℚ)/100 := by
      push_cast; ring
    have e3 : (i : ℚ)/100 + (j : ℚ)/100 = ((i + j : ℤ) : ℚ)/100 := by
      push_cast; ring
    rw [e1, hq2, hq1, e2, hq4, e3, hq3]
    push_cast
    ring

/-- C10, witness: investing $25000 into P-001 from a freshly reset $100000
ledger drops NAV from $100000 to exactly $75000. -/
theorem C10_witness :
    (defaultProjectBackend.execute_allocation "P-001" ((2500000 : ℕ) / 100 : ℚ)
        ledger100k).1 = true ∧
    Ledger.get_nav none
        (defaultProjectBackend.execute_allocation "P-001" ((2500000 : ℕ) / 100 : ℚ)
          ledger100k).2.2 =
      Ledger.get_nav none ledger100k - ((2500000 : ℕ) : ℚ)/100 := by
  have h := C10_theorem.2 defaultProjectBackend "P-001"
    (mkProject "P-001" "Tech Startup Alpha" 50000 (25/100) "HIGH" 8 (6/10))
    2500000 10000000 0 ledger100k none rfl
    (by simp [mkProject])
    (by simp only [mkProject]; norm_num)
    (by simp only [ledger100k, Ledger.cash, quant, rhe]; norm_num)
    (by simp [ledger100k]; norm_num)
    (by simp [ledger100k])
  exact h

/-! ## Claim C2: cash effect of a project completion -/

/-- The default catalogue with one $80 commitment to P-001 in its final
week. -/
def pbC2 : ProjectBackend :=
  { available_projects := defaultProjects,
    agent_investments := [⟨"P-001", 80, 1⟩] }

/-- A ledger with $100 cash and the consolidated P-001 position. -/
def ledgerC2 : Ledger :=
  { _cash := 100, assets := [⟨"PROJECT", "P-001", 1, 80⟩] }

/-- Payout draws: success roll 0, lognormal multiplier 1.25 (payout
$100). -/
def drawsC2 : ℕ → PayoutDraw := fun _ => ⟨0, 5/4, 1/5⟩

/-- C2, amended: when the single outstanding record completes, the ledger
cash becomes `Q2(Q2(cash + cost_basis/quantity) + payout)` — the payout
*plus* the `remove_asset` proceeds valued at average cost basis — and
exactly 1.0 unit of the PROJECT position is removed. -/
theorem C2_theorem (pb : ProjectBackend) (pv : Option PriceView)
    (draws : ℕ → PayoutDraw) (l : Ledger) (inv : ProjectInvestment) (a : Asset)
    (hinv : pb.agent_investments = [inv])
    (hw : inv.weeks_remaining = 1)
    (hfa : findAsset "PROJECT" inv.project_id l.assets = some a)
    (hq1 : 1 ≤ a.quantity)
    (hqe : a.quantity = 1 ∨ 1 + 1/1000000 < a.quantity) :
    ∃ evs pb2 l2, pb.tick pv draws l = .ok (evs, pb2, l2) ∧
      l2._cash = quant 2 (quant 2 (l._cash + a.cost_basis / a.quantity) +
        pb.calculate_project_payout { inv with weeks_remaining := 0 } (draws 0)) ∧
      totalQuantity "PROJECT" inv.project_id l2.assets =
        totalQuantity "PROJECT" inv.project_id l.assets - 1 ∧
      pb2.agent_investments = [] := by
  have h := projTick_complete_single pv draws l hinv hw hfa hq1
  refine ⟨_, _, _, h, rfl, ?_, rfl⟩
  rcases hqe with hq | hq
  · rw [if_pos (by rw [hq]; norm_num)]
    rw [totalQuantity_dropFirst hfa, hq]
  · rw [if_neg (by intro hc; nlinarith)]
    have hty := (findAsset_props hfa).2.1
    rw [totalQuantity_updateFirst _ hfa ⟨hty, (findAsset_props hfa).2.2⟩]
    simp only []
    ring

/-- C2, counterexample: completing an $80 investment in P-001 with payout
$100 from $100 cash leaves cash at $280 = 100 + 80 (cost-basis proceeds)
+ 100 (payout), not at $200 = 100 + payout as the claim (payout and
nothing else) predicts. -/
theorem C2_counterexample :
    (pbC2.tick none drawsC2 ledgerC2).toOption.map (fun r => r.2.2._cash)
        = some 280 ∧
    pbC2.calculate_project_payout ⟨"P-001", 80, 0⟩ (drawsC2 0) = 100 ∧
    (280 : ℚ) ≠ ledgerC2._cash +
      pbC2.calculate_project_payout ⟨"P-001", 80, 0⟩ (drawsC2 0) := by
  have hpay : pbC2.calculate_project_payout ⟨"P-001", 80, 0⟩ (drawsC2 0) = 100 := by
    unfold ProjectBackend.calculate_project_payout
    simp only [show lookupD (ProjectInvestment.mk "P-001" 80 0).project_id
        pbC2.available_projects =
        some (mkProject "P-001" "Tech Startup Alpha" 50000 (25/100) "HIGH" 8 (6/10))
      from rfl, drawsC2, mkProject]
    rw [if_pos (by norm_num)]
    simp only [quant, rhe]
    norm_num
  have h := @projTick_complete_single pbC2 none drawsC2 ledgerC2
    ⟨"P-001", 80, 1⟩ ⟨"PROJECT", "P-001", 1, 80⟩
    rfl rfl rfl (by norm_num)
  refine ⟨?_, hpay, ?_⟩
  · rw [h]
    simp only [Except.toOption, Option.map, Option.some.injEq]
    rw [show ({ ProjectInvestment.mk "P-001" 80 1 with weeks_remaining := 0 })
        = (⟨"P-001", 80, 0⟩ : ProjectInvestment) from rfl]
    rw [hpay]
    simp only [ledgerC2]
    rw [show ((Asset.mk "PROJECT" "P-001" 1 80).cost_basis /
        (Asset.mk "PROJECT" "P-001" 1 80).quantity : ℚ) = 80 from by norm_num]
    simp only [quant, rhe]
    norm_num
  · rw [hpay]
    simp only [ledgerC2]
    norm_num

/-- C2, witness: the amended theorem applied to the same concrete
completion. -/
theorem C2_witness :
    ∃ evs pb2 l2, pbC2.tick none drawsC2 ledgerC2 = .ok (evs, pb2, l2) ∧
      l2._cash = quant 2 (quant 2 (ledgerC2._cash + 80 / 1) +
        pbC2.calculate_project_payout ⟨"P-001", 80, 0⟩ (drawsC2 0)) ∧
      totalQuantity "PROJECT" "P-001" l2.assets =
        totalQuantity "PROJECT" "P-001" ledgerC2.assets - 1 ∧
      pb2.agent_investments = [] :=
  C2_theorem pbC2 none drawsC2 ledgerC2 ⟨"P-001", 80, 1⟩ ⟨"PROJECT", "P-001", 1, 80⟩
    rfl rfl rfl (by norm_num) (Or.inl (by norm_num))

/-! ## Claim C4: project payout timing -/

/-- Iterated `ProjectBackend.tick`, recording each call's news events;
`drawss n` supplies the payout draws of the (n+1)-th call. -/
def tickTrace (pv : Option PriceView) (drawss : ℕ → ℕ → PayoutDraw) :
    ℕ → ProjectBackend → Ledger →
      Except String (List (List String) × ProjectBackend × Ledger)
  | 0, pb, l => .ok ([], pb, l)
  | n + 1, pb, l =>
    match pb.tick pv (drawss 0) l with
    | .error e => .error e
    | .ok r =>
      match tickTrace pv (fun k => drawss (k + 1)) n r.2.1 r.2.2 with
      | .error e => .error e
      | .ok r2 => .ok (r.1 :: r2.1, r2.2.1, r2.2.2)

lemma tickTrace_nil (pv : Option PriceView) (drawss : ℕ → ℕ → PayoutDraw)
    (m : ℕ) (pb : ProjectBackend) (l : Ledger)
    (hinv : pb.agent_investments = []) :
    tickTrace pv drawss m pb l = .ok (List.replicate m [], pb, l) := by
  induction m generalizing drawss with
  | zero => rfl
  | succ n ih =>
    unfold tickTrace
    rw [projTick_nil pv (drawss 0) l hinv]
    simp only [ih]
    rfl

lemma completionEvent_length {pb0 : ProjectBackend} {inv2 : ProjectInvestment}
    {payout : ℚ} (h : (lookupD inv2.project_id pb0.available_projects).isSome = true) :
    (completionEvent pb0 inv2 payout).length = 1 := by
  unfold completionEvent
  cases hl : lookupD inv2.project_id pb0.available_projects with
  | none => rw [hl] at h; simp at h
  | some p =>
    simp only [hl]
    split_ifs <;> rfl

/-- Running N project ticks from a single record with N weeks remaining:
silence for the first N-1 calls, exactly one completion event on the N-th,
then an empty record list. -/
lemma C4_run {N : ℕ} (hN : 1 ≤ N) :
    ∀ (pb : ProjectBackend) (l : Ledger) (pv : Option PriceView)
      (drawss : ℕ → ℕ → PayoutDraw) (inv : ProjectInvestment) (a : Asset),
      pb.agent_investments = [inv] →
      inv.weeks_remaining = (N : ℤ) →
      findAsset "PROJECT" inv.project_id l.assets = some a →
      1 ≤ a.quantity →
      (lookupD inv.project_id pb.available_projects).isSome = true →
      ∃ evss pb2 l2,
        tickTrace pv drawss N pb l = .ok (evss, pb2, l2) ∧
        evss.length = N ∧
        (∀ k, k + 1 < N → evss.getD k [] = []) ∧
        (evss.getD (N - 1) []).length = 1 ∧
        pb2.agent_investments = [] ∧
        pb2.available_projects = pb.available_projects := by
  induction N, hN using Nat.le_induction with
  | base =>
    intro pb l pv drawss inv a hinv hw hfa hq1 hsome
    have hw1 : inv.weeks_remaining = 1 := by exact_mod_cast hw
    have h := projTick_complete_single pv (drawss 0) l hinv hw1 hfa hq1
    refine ⟨[completionEvent pb { inv with weeks_remaining := 0 }
        (pb.calculate_project_payout { inv with weeks_remaining := 0 } (drawss 0 0))],
      { pb with agent_investments := [] },
      { _cash := quant 2 (quant 2 (l._cash + a.cost_basis / a.quantity) +
          pb.calculate_project_payout { inv with weeks_remaining := 0 } (drawss 0 0)),
        assets :=
          if a.quantity - 1 ≤ 1/1000000 then dropFirst "PROJECT" inv.project_id l.assets
          else
            updateFirst "PROJECT" inv.project_id
              (fun b => { b with quantity := a.quantity - 1, cost_basis := a.cost_basis - a.cost_basis / a.quantity * 1 })
              l.assets },
      ?_, rfl, ?_, ?_, rfl, rfl⟩
    · unfold tickTrace
      rw [h]
      rfl
    · intro k hk
      omega
    · exact completionEvent_length hsome
  | succ n hn ih =>
    intro pb l pv drawss inv a hinv hw hfa hq1 hsome
    have hw2 : 2 ≤ inv.weeks_remaining := by omega
    have hsil := projTick_silent_single pv (drawss 0) l hinv hw2
    have hwn : ({ inv with weeks_remaining := inv.weeks_remaining - 1 }
        : ProjectInvestment).weeks_remaining = (n : ℤ) := by
      show inv.weeks_remaining - 1 = (n : ℤ)
      omega
    obtain ⟨evss, pb2, l2, htr, hlen, hsilent, hlast, hempty, hproj⟩ :=
      ih { pb with agent_investments :=
          [{ inv with weeks_remaining := inv.weeks_remaining - 1 }] } l pv
        (fun k => drawss (k + 1))
        { inv with weeks_remaining := inv.weeks_remaining - 1 } a
        rfl hwn hfa hq1 hsome
    refine ⟨[] :: evss, pb2, l2, ?_, by simp [hlen], ?_, ?_, hempty, hproj⟩
    · unfold tickTrace
      rw [hsil]
      simp only [htr]
    · intro k hk
      cases k with
      | zero => simp
      | succ k0 =>
        simp only [List.getD_cons_succ]
        exact hsilent k0 (by omega)
    · cases n with
      | zero => omega
      | succ n0 =>
        simp only [Nat.add_sub_cancel, List.getD_cons_succ]
        exact hlast

/-- `findAsset` after an `addAssets` merge. -/
lemma findAsset_addAssets (t id : String) (q cost : ℚ) (assets : List Asset) :
    findAsset t id (addAssets t id q cost assets) =
      match findAsset t id assets with
      | some a0 => some { a0 with quantity := a0.quantity + q, cost_basis := a0.cost_basis + cost }
      | none => some ⟨t, id, q, cost⟩ := by
  unfold addAssets
  cases hf : findAsset t id assets with
  | none => exact findAsset_append_single_none _ hf ⟨rfl, rfl⟩
  | some a0 =>
    have hp := findAsset_props hf
    exact findAsset_updateFirst_self _ hf ⟨hp.2.1, hp.2.2⟩

/-- C4: a successful allocation creating a record with
`weeks_to_completion = N ≥ 1` (on a backend with no other records) yields
exactly one completion news event, produced by the N-th subsequent
`ProjectBackend.tick` — never earlier, and never again afterwards. -/
theorem C4_theorem (pb0 : ProjectBackend) (pid : String) (project : Project)
    (usd : ℚ) (l0 : Ledger) (pv : Option PriceView)
    (drawss : ℕ → ℕ → PayoutDraw) (N : ℕ)
    (hN : 1 ≤ N)
    (hinv0 : pb0.agent_investments = [])
    (hfind : lookupD pid pb0.available_projects = some project)
    (hweeks : project.weeks_to_completion = (N : ℤ))
    (hrem : 0 < project.remaining_funding)
    (hcash : usd ≤ l0.cash)
    (hprior : ∀ a ∈ l0.assets, 0 ≤ a.quantity) :
    (pb0.execute_allocation pid usd l0).1 = true ∧
    ∃ evss pb2 l2,
      tickTrace pv drawss N (pb0.execute_allocation pid usd l0).2.1
        (pb0.execute_allocation pid usd l0).2.2 = .ok (evss, pb2, l2) ∧
      evss.length = N ∧
      (∀ k, k + 1 < N → evss.getD k [] = []) ∧
      (evss.getD (N - 1) []).length = 1 ∧
      pb2.agent_investments = [] ∧
      (∀ (m : ℕ) (drawss2 : ℕ → ℕ → PayoutDraw),
        tickTrace pv drawss2 m pb2 l2 = .ok (List.replicate m [], pb2, l2)) := by
  have hspec := projectExec_spec hfind hrem hcash
  have hfa := findAsset_addAssets "PROJECT" pid 1
    (min usd project.remaining_funding) l0.assets
  refine ⟨by rw [hspec], ?_⟩
  have hq1 : ∃ a, findAsset "PROJECT" pid
      (addAssets "PROJECT" pid 1 (min usd project.remaining_funding) l0.assets)
      = some a ∧ 1 ≤ a.quantity := by
    cases hf0 : findAsset "PROJECT" pid l0.assets with
    | none =>
      rw [hf0] at hfa
      exact ⟨_, hfa, le_refl 1⟩
    | some a0 =>
      rw [hf0] at hfa
      refine ⟨_, hfa, ?_⟩
      have := hprior a0 (findAsset_props hf0).1
      simp only []
      linarith
  obtain ⟨a, hfa2, hq⟩ := hq1
  have hsome : (lookupD pid (pb0.execute_allocation pid usd l0).2.1.available_projects).isSome
      = true := by
    rw [hspec]
    simp [lookupD_updateD_self, hfind]
  obtain ⟨evss, pb2, l2, htr, hlen, hsilent, hlast, hempty, _⟩ :=
    C4_run hN (pb0.execute_allocation pid usd l0).2.1
      (pb0.execute_allocation pid usd l0).2.2 pv drawss
      { project_id := pid, amount_invested := min usd project.remaining_funding,
        weeks_remaining := project.weeks_to_completion }
      a (by rw [hspec]; simp [hinv0])
      (by show project.weeks_to_completion = (N : ℤ); exact hweeks)
      (by rw [hspec]; exact hfa2) hq hsome
  exact ⟨evss, pb2, l2, htr, hlen, hsilent, hlast, hempty,
    fun m drawss2 => tickTrace_nil pv drawss2 m pb2 l2 hempty⟩

/-- C4, witness: investing $1000 into P-005 (4 weeks) on the default
catalogue and ticking 4 times yields silence, silence, silence, one
completion event. -/
theorem C4_witness :
    (defaultProjectBackend.execute_allocation "P-005" 1000 ledger100k).1 = true ∧
    ∃ evss pb2 l2,
      tickTrace none (fun _ _ => ⟨0, 5/4, 1/5⟩) 4
        (defaultProjectBackend.execute_allocation "P-005" 1000 ledger100k).2.1
        (defaultProjectBackend.execute_allocation "P-005" 1000 ledger100k).2.2
        = .ok (evss, pb2, l2) ∧
      evss.length = 4 ∧
      (∀ k, k + 1 < 4 → evss.getD k [] = []) ∧
      (evss.getD 3 []).length = 1 ∧
      pb2.agent_investments = [] ∧
      (∀ (m : ℕ) (drawss2 : ℕ → ℕ → PayoutDraw),
        tickTrace none drawss2 m pb2 l2 = .ok (List.replicate m [], pb2, l2)) :=
  C4_theorem defaultProjectBackend "P-005"
    (mkProject "P-005" "Infrastructure Bond" 25000 (8/100) "LOW" 4 (95/100))
    1000 ledger100k none (fun _ _ => ⟨0, 5/4, 1/5⟩) 4
    (by norm_num) rfl rfl rfl (by simp [mkProject])
    (by simp only [ledger100k, Ledger.cash, quant, rhe]; norm_num)
    (by simp [ledger100k])

/-! ## Claim C6: the router catches backend exceptions per item -/

lemma runAllocs_cons {σ : Type} (exec : BackendExec σ) (failReason errPrefix : String)
    (a : Alloc) (rest : List Alloc) (s : σ) :
    runAllocs exec failReason errPrefix (a :: rest) s =
      (let r := exec a s
       let here : List FailedAllocation :=
         match r.1 with
         | .ok true => []
         | .ok false => [{ allocation := a, reason := failReason }]
         | .error e => [{ allocation := a, reason := errPrefix ++ e }]
       let r2 := runAllocs exec failReason errPrefix rest r.2
       (here ++ r2.1, r2.2)) := rfl

lemma runAllocs_append {σ : Type} (exec : BackendExec σ) (failReason errPrefix : String)
    (xs ys : List Alloc) (s : σ) :
    runAllocs exec failReason errPrefix (xs ++ ys) s =
      ((runAllocs exec failReason errPrefix xs s).1 ++
        (runAllocs exec failReason errPrefix ys
          (runAllocs exec failReason errPrefix xs s).2).1,
       (runAllocs exec failReason errPrefix ys
          (runAllocs exec failReason errPrefix xs s).2).2) := by
  induction xs generalizing s with
  | nil => rfl
  | cons x rest ih =>
    rw [List.cons_append, runAllocs_cons, runAllocs_cons]
    simp only [ih, List.append_assoc]

/-- C6: if a backend's `execute_allocation` raises on one item (here: the
equity item `a`, reached after processing `pre`), `execute_action` records
a per-item failure embedding the exception message, continues with every
remaining equity item from the post-exception state, still runs the
project and bond phases, and returns the full failure list — it never
returns an exception (the return type is a plain list). -/
theorem C6_theorem {σ : Type} (tradeExec : BackendExec σ)
    (pb? db? : Option (BackendExec σ)) (action : CapitalAllocationAction)
    (s : σ) (pre post : List Alloc) (a : Alloc) (e : String) (s2 : σ)
    (hsplit : action.allocations.filter (fun x => x.asset_type = "EQUITY")
        = pre ++ a :: post)
    (herr : tradeExec a
        (runAllocs tradeExec "Trade execution failed" "Trade error: " pre s).2
        = (.error e, s2)) :
    executeAction tradeExec pb? db? action s =
      (let rpre := runAllocs tradeExec "Trade execution failed" "Trade error: " pre s
       let rpost := runAllocs tradeExec "Trade execution failed" "Trade error: " post s2
       let rproj :=
         match pb? with
         | some pe => runAllocs pe "Project investment failed" "Project error: "
             (action.allocations.filter (fun x => x.asset_type = "PROJECT")) rpost.2
         | none => ([], rpost.2)
       let rbond :=
         match db? with
         | some de => runAllocs de "Bond transaction failed" "Bond error: "
             (action.allocations.filter (fun x => x.asset_type = "BOND")) rproj.2
         | none => ([], rproj.2)
       (rpre.1 ++ ({ allocation := a, reason := "Trade error: " ++ e } :: rpost.1)
          ++ rproj.1 ++ rbond.1,
        rbond.2)) := by
  unfold executeAction
  simp only [hsplit]
  rw [runAllocs_append, runAllocs_cons]
  simp only [herr, List.append_assoc, List.singleton_append]

/-- A test backend over state ℕ: raises on ticker BAD, succeeds (counting)
otherwise. -/
def tradeExecW : BackendExec ℕ := fun x s =>
  match x with
  | .equity t _ => if t = "BAD" then (.error "boom", s) else (.ok true, s + 1)
  | _ => (.ok false, s)

/-- A three-item equity batch whose middle item raises. -/
def actionW : CapitalAllocationAction :=
  { comment := "", cognition_cost := 0,
    allocations := [.equity "AAPL" 1, .equity "BAD" 2, .equity "MSFT" 3] }

/-- C6, witness: the exception on BAD is converted to the failure
`Trade error: boom`, and MSFT is still processed (final state counts both
successful items). -/
theorem C6_witness :
    executeAction tradeExecW none none actionW 0 =
      ([{ allocation := .equity "BAD" 2, reason := "Trade error: " ++ "boom" }], 2) := by
  have h := C6_theorem tradeExecW none none actionW 0
    [.equity "AAPL" 1] [.equity "MSFT" 3] (.equity "BAD" 2) "boom" 1 rfl rfl
  rw [h]
  rfl

/-! ## Claim C7: bond bounds and YTM sign after a rate update -/

lemma lookupD_map_value {α β : Type} (g : α → β) (k : String)
    (l : List (String × α)) :
    lookupD k (l.map (fun kv => (kv.1, g kv.2))) = (lookupD k l).map g := by
  induction l with
  | nil => rfl
  | cons kv rest ih =>
    by_cases h : kv.1 = k
    · simp [lookupD, h]
    · simp [lookupD, h, ih]

/-- C7, counterexample: updating the default catalogue to a 1.5% base rate
drives BOND-005 above face value (price $1286.25) and its recomputed YTM to
−0.0032 — neither strictly positive nor zero-at-price-zero, refuting the
claim's YTM clause. -/
theorem C7_counterexample :
    (lookupD "BOND-005" (defaultDebtBackend.update_interest_rates (some (3/2))).bonds).map
        Bond.yield_to_maturity = some (-(32/10000)) ∧
    (lookupD "BOND-005" (defaultDebtBackend.update_interest_rates (some (3/2))).bonds).map
        Bond.current_price = some (128625/100) ∧
    ¬ ((0:ℚ) < -(32/10000) ∨ (-(32/10000) : ℚ) = 0 ∧ (128625/100 : ℚ) = 0) := by
  have hb5 : lookupD "BOND-005" defaultDebtBackend.bonds =
      some (mkBond "BOND-005" "Treasury TIPS 15Y" 1000 (15/1000) 15 1050) := rfl
  have hl : lookupD "BOND-005" (defaultDebtBackend.update_interest_rates (some (3/2))).bonds
      = some (updatedBond defaultDebtBackend.base_interest_rate (3/2)
          (mkBond "BOND-005" "Treasury TIPS 15Y" 1000 (15/1000) 15 1050)) := by
    unfold DebtBackend.update_interest_rates
    rw [lookupD_map_value, hb5]
    rfl
  have hup : updatedBond defaultDebtBackend.base_interest_rate (3/2)
      (mkBond "BOND-005" "Treasury TIPS 15Y" 1000 (15/1000) 15 1050) =
      { bond_id := "BOND-005", name := "Treasury TIPS 15Y", face_value := 1000,
        coupon_rate := 15/1000, maturity_years := 15,
        current_price := 128625/100, yield_to_maturity := -(32/10000) } := by
    unfold updatedBond mkBond Bond.calculate_ytm defaultDebtBackend
    simp only [max_def, min_def, quant, rhe]
    norm_num
  refine ⟨?_, ?_, by norm_num⟩
  · rw [hl, hup]
    rfl
  · rw [hl, hup]
    rfl

/-- The approximate YTM is strictly positive whenever the price is
positive, at most face value, the coupon rate at least one basis point of
one percent, and the maturity at least one year. -/
lemma calculate_ytm_pos {b : Bond} (hp : 0 < b.current_price)
    (hple : b.current_price ≤ b.face_value)
    (hc : 1/10000 ≤ b.coupon_rate) (hm : 1 ≤ b.maturity_years) :
    0 < b.calculate_ytm := by
  unfold Bond.calculate_ytm
  rw [if_neg hp.ne']
  have hnum : b.current_price * (1/10000) ≤
      b.face_value * b.coupon_rate + (b.face_value - b.current_price) / b.maturity_years := by
    have hgap : (0:ℚ) ≤ (b.face_value - b.current_price) / b.maturity_years :=
      div_nonneg (by linarith) (by linarith)
    have hcoup : b.current_price * (1/10000) ≤ b.face_value * b.coupon_rate := by
      calc b.current_price * (1/10000) ≤ b.face_value * (1/10000) := by nlinarith
        _ ≤ b.face_value * b.coupon_rate := by nlinarith
    linarith
  have hraw : (1:ℚ)/10000 ≤
      (b.face_value * b.coupon_rate + (b.face_value - b.current_price) / b.maturity_years)
        / b.current_price := by
    rw [le_div_iff₀ hp]
    calc (1:ℚ)/10000 * b.current_price = b.current_price * (1/10000) := by ring
      _ ≤ _ := hnum
  calc (0:ℚ) < 1/10000 := by norm_num
    _ = quant 4 (1/10000) := by
        rw [show ((1:ℚ)/10000) = ((1 : ℤ) : ℚ)/10^4 by norm_num]
        rw [quant_int_div]
    _ ≤ _ := quant_le_of_le 4 hraw

/-- C7, amended: after a rate update with any rate value, every bond's new
price is the ROUND_HALF_EVEN cent-quantization of the shifted price
clamped into [0.1 × face_value, 2.0 × face_value].  The stored price
therefore always lies within half a cent of that interval (at least
0.1 × face_value − 0.005 and at most 2.0 × face_value + 0.005), and lies
exactly within it whenever the face value is a whole number of dimes — in
particular for every catalogue bond, whose faces are all $1000; for a
cents-valued face such as $999.91 the quantization can land the price half
a cent outside.  The recomputed YTM is strictly positive whenever the
updated price does not exceed face value (face value at least $1, coupon
rate at least 0.0001, maturity at least 1 year) — above face value the YTM
may be zero or negative. -/
theorem C7_theorem (db : DebtBackend) (r : ℚ) (k : String) (b : Bond)
    (hfind : lookupD k db.bonds = some b)
    (hfv : 1 ≤ b.face_value)
    (hc : 1/10000 ≤ b.coupon_rate) (hm : 1 ≤ b.maturity_years) :
    ∃ b2, lookupD k (db.update_interest_rates (some r)).bonds = some b2 ∧
      b2.face_value * (1/10) - 1/200 ≤ b2.current_price ∧
      b2.current_price ≤ b2.face_value * 2 + 1/200 ∧
      (∀ n : ℤ, b.face_value = (n : ℚ) / 10 →
        b2.face_value * (1/10) ≤ b2.current_price ∧
        b2.current_price ≤ b2.face_value * 2) ∧
      (b2.current_price ≤ b2.face_value → 0 < b2.yield_to_maturity) := by
  have hstep : lookupD k (db.update_interest_rates (some r)).bonds =
      some (updatedBond db.base_interest_rate r b) := by
    unfold DebtBackend.update_interest_rates
    rw [lookupD_map_value, hfind]
    rfl
  have hmaxge : b.face_value * (1/10) ≤
      max (b.face_value * (1/10)) (min (b.face_value * 2)
        (b.current_price * (1 + -b.maturity_years * (r / 100 - db.base_interest_rate)))) :=
    le_max_left _ _
  have hmaxle : max (b.face_value * (1/10)) (min (b.face_value * 2)
      (b.current_price * (1 + -b.maturity_years * (r / 100 - db.base_interest_rate))))
      ≤ b.face_value * 2 := by
    apply max_le
    · linarith
    · exact min_le_left _ _
  have hlow : b.face_value * (1/10) - 1/200 ≤
      (updatedBond db.base_interest_rate r b).current_price := by
    have h2 := quant_le_of_le 2 hmaxge
    have h3 := abs_quant_sub_self 2 (b.face_value * (1/10))
    rw [abs_le] at h3
    show b.face_value * (1/10) - 1/200 ≤ quant 2 _
    have h5 : (1:ℚ) / (2 * 10 ^ 2) = 1/200 := by norm_num
    linarith [h3.1]
  have hupp : (updatedBond db.base_interest_rate r b).current_price ≤
      b.face_value * 2 + 1/200 := by
    have h2 := quant_le_of_le 2 hmaxle
    have h3 := abs_quant_sub_self 2 (b.face_value * 2)
    rw [abs_le] at h3
    show quant 2 _ ≤ b.face_value * 2 + 1/200
    have h5 : (1:ℚ) / (2 * 10 ^ 2) = 1/200 := by norm_num
    linarith [h3.2]
  refine ⟨updatedBond db.base_interest_rate r b, hstep, hlow, hupp, ?_, ?_⟩
  · intro n hfvd
    refine ⟨?_, ?_⟩
    · show b.face_value * (1/10) ≤ quant 2 _
      calc b.face_value * (1/10) = quant 2 (b.face_value * (1/10)) := by
            rw [hfvd]
            rw [show ((n : ℚ)/10) * (1/10) = (n : ℚ) / 10 ^ 2 by ring]
            rw [quant_int_div]
        _ ≤ _ := quant_le_of_le 2 hmaxge
    · show quant 2 _ ≤ b.face_value * 2
      calc quant 2 _ ≤ quant 2 (b.face_value * 2) := quant_le_of_le 2 hmaxle
        _ = b.face_value * 2 := by
            rw [hfvd]
            rw [show ((n : ℚ)/10) * 2 = ((2 * n : ℤ) : ℚ) / 10 by push_cast; ring]
            rw [show ((2 * n : ℤ) : ℚ) / 10 = ((20 * n : ℤ) : ℚ) / 10 ^ 2 by
              push_cast; ring]
            rw [quant_int_div]
  · intro hple
    have hppos : 0 < (updatedBond db.base_interest_rate r b).current_price := by
      linarith
    show 0 < Bond.calculate_ytm
      { b with current_price := (updatedBond db.base_interest_rate r b).current_price }
    exact calculate_ytm_pos hppos hple hc hm

/-- C7, witness: a hike to 4.5% prices BOND-001 at $833.00 ≤ face, within
the slack bounds and (its $1000 face being a whole number of dimes) within
the exact bounds, with strictly positive YTM. -/
theorem C7_witness :
    ∃ b2, lookupD "BOND-001"
        (defaultDebtBackend.update_interest_rates (some (9/2))).bonds = some b2 ∧
      b2.face_value * (1/10) - 1/200 ≤ b2.current_price ∧
      b2.current_price ≤ b2.face_value * 2 + 1/200 ∧
      (∀ n : ℤ, (mkBond "BOND-001" "US Treasury 10Y" 1000 (25/1000) 10 980).face_value
          = (n : ℚ) / 10 →
        b2.face_value * (1/10) ≤ b2.current_price ∧
        b2.current_price ≤ b2.face_value * 2) ∧
      (b2.current_price ≤ b2.face_value → 0 < b2.yield_to_maturity) :=
  C7_theorem defaultDebtBackend (9/2) "BOND-001"
    (mkBond "BOND-001" "US Treasury 10Y" 1000 (25/1000) 10 980)
    rfl (by simp only [mkBond]; norm_num)
    (by simp only [mkBond]; norm_num) (by simp only [mkBond]; norm_num)

/-! ## Claim C9: equity round trip -/

/-- Anatomy of `Ledger.remove_asset` for an EQUITY position with a live
market price: proceeds are `price * quantity`. -/
lemma remove_asset_equity_spec {pv : PriceView} {l : Ledger} {t : String}
    {q p : ℚ} {a : Asset}
    (hf : findAsset "EQUITY" t l.assets = some a)
    (hqty : q ≤ a.quantity) (hqpos : 0 < a.quantity)
    (hprice : pv.getPrice t = some p) :
    l.remove_asset (some pv) "EQUITY" t q =
      .ok (true, p * q,
        { _cash := l._cash + p * q,
          assets :=
            if a.quantity - q ≤ 1/1000000 then dropFirst "EQUITY" t l.assets
            else
              updateFirst "EQUITY" t
                (fun b => { b with quantity := a.quantity - q, cost_basis := a.cost_basis - a.cost_basis / a.quantity * q })
                l.assets }) := by
  unfold Ledger.remove_asset
  simp only [hf]
  rw [if_neg (not_lt.mpr hqty), if_pos hqpos, if_neg hqpos.ne']
  simp [hprice]

/-- The default stock catalogue. -/
def defaultTradeBackend : TradeBackend := { stocks := defaultStocks }

/-- C9: buying u dollars of a stock at price p and immediately selling the
same u dollars at the unchanged price returns the quantized cash to its
pre-buy value up to `p * 1e-6` (6-digit share rounding) plus one cent
(2-digit cash rounding). -/
theorem C9_theorem (tb : TradeBackend) (t : String) (p u : ℚ) (l0 : Ledger)
    (hprice : tb.get_price t = some p) (hp : 0 < p) (hu : 0 < u)
    (hcash : u ≤ l0.cash)
    (hprior : ∀ a0, findAsset "EQUITY" t l0.assets = some a0 → 0 ≤ a0.quantity)
    (hshares : 0 < quant 6 (u / p)) :
    ∃ l1, tb.execute_allocation (some (priceViewOfTrade tb)) t u l0 = .ok (true, l1) ∧
    ∃ l2, tb.execute_allocation (some (priceViewOfTrade tb)) t (-u) l1 = .ok (true, l2) ∧
      l2._cash = l0._cash - u + p * quant 6 (u / p) ∧
      |Ledger.cash l2 - Ledger.cash l0| ≤ p * (1/1000000) + 1/100 := by
  have hpne : p ≠ 0 := hp.ne'
  set s := quant 6 (u / p) with hs
  -- the buy
  have hbuy : tb.execute_allocation (some (priceViewOfTrade tb)) t u l0 =
      .ok (true,
        { _cash := l0._cash - u,
          assets := addAssets "EQUITY" t s u l0.assets }) := by
    unfold TradeBackend.execute_allocation
    simp only [hprice]
    rw [if_pos hu]
    unfold TradeBackend.execute_buy
    rw [if_neg (not_lt.mpr hcash)]
    unfold Ledger.add_asset
    rw [if_neg (not_lt.mpr hcash)]
  refine ⟨_, hbuy, ?_⟩
  -- the position after the buy
  have hfa1 : ∃ a1, findAsset "EQUITY" t (addAssets "EQUITY" t s u l0.assets) = some a1
      ∧ s ≤ a1.quantity ∧ 0 < a1.quantity := by
    have := findAsset_addAssets "EQUITY" t s u l0.assets
    cases hf0 : findAsset "EQUITY" t l0.assets with
    | none =>
      rw [hf0] at this
      exact ⟨_, this, le_refl s, hshares⟩
    | some a0 =>
      rw [hf0] at this
      have h0 := hprior a0 hf0
      refine ⟨_, this, ?_, ?_⟩
      · show s ≤ a0.quantity + s
        linarith
      · show (0:ℚ) < a0.quantity + s
        linarith
  obtain ⟨a1, hfa1, hle1, hpos1⟩ := hfa1
  -- the sell
  have hsell : tb.execute_allocation (some (priceViewOfTrade tb)) t (-u)
      { _cash := l0._cash - u, assets := addAssets "EQUITY" t s u l0.assets } =
      .ok (true,
        { _cash := l0._cash - u + p * s,
          assets :=
            if a1.quantity - s ≤ 1/1000000 then
              dropFirst "EQUITY" t (addAssets "EQUITY" t s u l0.assets)
            else
              updateFirst "EQUITY" t
                (fun b => { b with quantity := a1.quantity - s, cost_basis := a1.cost_basis - a1.cost_basis / a1.quantity * s })
                (addAssets "EQUITY" t s u l0.assets) }) := by
    unfold TradeBackend.execute_allocation
    simp only [hprice]
    rw [if_neg (by linarith), if_pos (by linarith)]
    unfold TradeBackend.execute_sell
    rw [show |(-u)| = u from by rw [abs_neg, abs_of_pos hu]]
    simp only [hfa1, ← hs]
    rw [if_neg (not_lt.mpr hle1)]
    have hrm := @remove_asset_equity_spec (priceViewOfTrade tb)
      { _cash := l0._cash - u, assets := addAssets "EQUITY" t s u l0.assets }
      t s p a1 hfa1 hle1 hpos1 hprice
    rw [hrm]
    rfl
  refine ⟨_, hsell, rfl, ?_⟩
  -- the cash bound
  have herr : |s - u / p| ≤ 1 / (2 * 10 ^ 6) := by
    rw [hs]
    exact abs_quant_sub_self 6 (u / p)
  have hps : |p * s - u| ≤ p * (1/1000000) := by
    have he : p * s - u = p * (s - u / p) := by
      field_simp
      ring
    rw [he, abs_mul, abs_of_pos hp]
    calc p * |s - u / p| ≤ p * (1 / (2 * 10 ^ 6)) := by nlinarith [abs_nonneg (s - u/p)]
      _ ≤ p * (1/1000000) := by nlinarith
  have hq := abs_quant_sub_quant 2 (l0._cash - u + p * s) l0._cash
  have he2 : l0._cash - u + p * s - l0._cash = p * s - u := by ring
  rw [he2] at hq
  show |quant 2 (l0._cash - u + p * s) - quant 2 l0._cash| ≤ p * (1/1000000) + 1/100
  calc |quant 2 (l0._cash - u + p * s) - quant 2 l0._cash|
      ≤ |p * s - u| + 1 / 10 ^ 2 := hq
    _ ≤ p * (1/1000000) + 1/100 := by
        have : (1:ℚ) / 10 ^ 2 = 1/100 := by norm_num
        linarith

/-- C9, witness: buy $1000 of AAPL at $150 from $100000, sell $1000 at the
same price; cash returns to within $0.01015 of its pre-buy value. -/
theorem C9_witness :
    ∃ l1, defaultTradeBackend.execute_allocation
        (some (priceViewOfTrade defaultTradeBackend)) "AAPL" 1000 ledger100k
        = .ok (true, l1) ∧
    ∃ l2, defaultTradeBackend.execute_allocation
        (some (priceViewOfTrade defaultTradeBackend)) "AAPL" (-1000) l1
        = .ok (true, l2) ∧
      l2._cash = ledger100k._cash - 1000 + 150 * quant 6 (1000 / 150) ∧
      |Ledger.cash l2 - Ledger.cash ledger100k| ≤ 150 * (1/1000000) + 1/100 :=
  C9_theorem defaultTradeBackend "AAPL" 150 1000 ledger100k rfl
    (by norm_num) (by norm_num)
    (by simp only [ledger100k, Ledger.cash, quant, rhe]; norm_num)
    (by intro a0 h0; simp [ledger100k, findAsset] at h0)
    (by simp only [quant, rhe]; norm_num)

/-! ## Claim C8: the excess-volatility term -/

/-- Sample standard deviation (ddof = 1), following the claim's words. -/
noncomputable def sampleStd (l : List ℝ) : ℝ :=
  Real.sqrt ((l.map (fun x => (x - listMean l) ^ 2)).sum / ((l.length : ℝ) - 1))

/-- The trailing `k` elements of a list. -/
def takeLast {α : Type} (k : ℕ) (l : List α) : List α := l.drop (l.length - k)

/-- The claim's excess-volatility term: max(0, σ − target) with σ the
*sample* standard deviation of simple returns over a trailing window of at
most the last 10 NAVs *including the current NAV*.  Stated from the
claim's words, to be compared against `volatilityPenalty` from the
source. -/
noncomputable def specClaimExcessVol (nav_history : List ℚ) (current_nav : ℚ) : ℝ :=
  let window := takeLast 10 ((nav_history ++ [current_nav]).map (fun q : ℚ => (q : ℝ)))
  max 0 (sampleStd (returnsOf window) - (targetVolatility : ℚ))

/-- The amended claim's excess-volatility term: max(0, σ − target) with σ
the *population* standard deviation of simple returns over the last ≤ 10
previous NAVs together with the current NAV (up to 11 NAVs), zero with
fewer than two previous NAVs. -/
noncomputable def specAmendedExcessVol (nav_history : List ℚ) (current_nav : ℚ) : ℝ :=
  if nav_history.length < 2 then 0
  else
    max 0 (popStd (returnsOf ((nav_history ++ [current_nav]).map (fun q : ℚ => (q : ℝ))))
      - (targetVolatility : ℚ))

lemma returnsOf_length (l : List ℝ) : (returnsOf l).length = l.length - 1 := by
  unfold returnsOf
  rw [List.length_zipWith, List.length_tail]
  omega

/-- A ten-NAV history: one crash from 200 to 100, then flat. -/
def histC8 : List ℚ := [200, 100, 100, 100, 100, 100, 100, 100, 100, 100]

/-- C8, counterexample: with history `histC8` and current NAV 100, the
source's penalty is 0.13 (population std over 11 NAVs, whose first return
−0.5 is inside the window), while the claim's term (sample std over the
last ≤ 10 NAVs including current, which are all equal) is 0. -/
theorem C8_counterexample :
    volatilityPenalty histC8 100 = 13/100 ∧
    specClaimExcessVol histC8 100 = 0 ∧
    (13/100 : ℝ) ≠ 0 := by
  refine ⟨?_, ?_, by norm_num⟩
  · have h94 : Real.sqrt (9/400) = 3/20 := by
      rw [show (9/400 : ℝ) = (3/20)^2 by norm_num,
        Real.sqrt_sq (by norm_num : (0:ℝ) ≤ 3/20)]
    unfold volatilityPenalty histC8 returnsOf popStd listMean targetVolatility
    norm_num [List.zipWith, h94]
  · unfold specClaimExcessVol histC8 sampleStd listMean takeLast returnsOf
      targetVolatility
    norm_num [List.zipWith, Real.sqrt_zero]

/-- C8, amended: the source's excess-volatility term equals max(0, σ′ −
target) where σ′ is the *population* standard deviation of simple returns
over the last ≤ 10 previous NAVs plus the current NAV (a window of up to
11 NAVs), and is 0 with fewer than two previous NAVs. -/
theorem C8_theorem (nav_history : List ℚ) (current_nav : ℚ) :
    volatilityPenalty nav_history current_nav =
      specAmendedExcessVol nav_history current_nav := by
  unfold volatilityPenalty specAmendedExcessVol
  by_cases hlen : nav_history.length < 2
  · rw [if_pos hlen, if_pos hlen]
  · rw [if_neg hlen, if_neg hlen]
    rw [if_neg ?hret]
    case hret =>
      rw [returnsOf_length]
      simp only [List.length_map, List.length_append, List.length_cons,
        List.length_nil]
      omega

/-! ## C1: rate shocks crash the tick (missing `apply_interest_rate_shock`) -/

/-- An engine core outside the shock cooldown window (last shock at tick 0,
about to run tick 6). -/
def coreC1 : EngineCore :=
  { current_tick := 5, last_shock_tick := 0, nav_history := [],
    previous_nav := 100000 }

/-- Random draws for a tick in which the shock roll lands under the 5%
probability and the drawn shock type is a rate hike of 50 bps. -/
def rngC1 : TickRng :=
  { shock_roll := 0, shock_type := .RATE_HIKE, rate_bps := 50,
    vol_draws := fun _ => 0, payout_draws := fun _ => ⟨0, 1, 1/5⟩ }

/-- The full default backend set (equity, project and debt backends all
present). -/
def backendsC1 : Backends :=
  { trade := defaultTradeBackend, projectB := some defaultProjectBackend,
    debtB := some defaultDebtBackend }

/-- C1: the claim says a rate-hike/rate-cut shock invokes the bond
backend's rate update and the tick still returns a well-formed tuple.  In
the code, `_apply_rate_shock` (engine.py line 364) calls
`self.debt_backend.apply_interest_rate_shock(rate_change_bps)`, a method
`DebtBackend` does not define — `update_interest_rates` is never called —
so whenever a rate shock triggers with a debt backend present, the tick
raises `AttributeError` instead of returning: `tickMain` yields the
`AttributeError` error value for every state, ledger, action and draw
sequence in which the cooldown has elapsed, the roll is at most the shock
probability, and the drawn type is a rate hike or cut. -/
theorem C1_theorem (core : EngineCore) (l : Ledger) (bk : Backends)
    (rng : TickRng) (action? : Option CapitalAllocationAction)
    (db : DebtBackend)
    (hdb : bk.debtB = some db)
    (hcool : minTicksBetweenShocks ≤ core.current_tick + 1 - core.last_shock_tick)
    (hroll : rng.shock_roll ≤ shockProbability)
    (htype : rng.shock_type = ShockType.RATE_HIKE ∨
      rng.shock_type = ShockType.RATE_CUT) :
    tickMain rng action? core l bk =
      .error "AttributeError: DebtBackend object has no attribute apply_interest_rate_shock" := by
  have hc : callApplyInterestRateShock db rng.rate_bps =
      .error "AttributeError: DebtBackend object has no attribute apply_interest_rate_shock" := by
    unfold callApplyInterestRateShock
    rw [if_neg (by decide)]
  have hars : applyRateShock bk rng.rate_bps =
      .error "AttributeError: DebtBackend object has no attribute apply_interest_rate_shock" := by
    simp only [applyRateShock, hdb, hc]
  have htrig : triggerShock { core with current_tick := core.current_tick + 1 }
      bk rng =
      .error "AttributeError: DebtBackend object has no attribute apply_interest_rate_shock" := by
    unfold triggerShock
    rw [if_neg ?hc1]
    case hc1 =>
      show ¬ (core.current_tick + 1 - core.last_shock_tick < minTicksBetweenShocks)
      omega
    rw [if_neg (not_lt.mpr hroll)]
    rcases htype with h | h <;> simp only [h, hars, Except.map]
  simp only [tickMain, htrig]

/-- C1 witness: at tick 6 with the default backends, a sub-probability roll
and a drawn rate hike, the tick errors out with the `AttributeError`. -/
theorem C1_witness :
    tickMain rngC1 none coreC1 ledger100k backendsC1 =
      .error "AttributeError: DebtBackend object has no attribute apply_interest_rate_shock" :=
  C1_theorem coreC1 ledger100k backendsC1 rngC1 none defaultDebtBackend rfl
    (by decide) (by simp only [rngC1, shockProbability]; norm_num)
    (Or.inl rfl)

/-! ## C3: the HODL comparison mutates the shared project backend -/

/-- A project backend holding one live investment record with three weeks
to completion. -/
def pbC3 : ProjectBackend :=
  { available_projects := defaultProjects,
    agent_investments := [⟨"P-005", 1000, 3⟩] }

/-- Backends shared between the primary engine and the HODL engine
(`_initialize_hodl_comparison` passes the primary backend objects to the
HODL `AllocationManager`). -/
def backendsC3 : Backends :=
  { trade := defaultTradeBackend, projectB := some pbC3,
    debtB := some defaultDebtBackend }

/-- A primary core inside the shock cooldown window (a shock fired on tick
5, the current tick), so tick 6 deterministically triggers no shock. -/
def coreC3 : EngineCore :=
  { current_tick := 5, last_shock_tick := 5, nav_history := [],
    previous_nav := 100000 }

/-- The primary ledger: residual cash and the PROJECT position backing the
live investment record. -/
def ledgerC3 : Ledger :=
  { _cash := 99000, assets := [⟨"PROJECT", "P-005", 1, 1000⟩] }

/-- A freshly initialised HODL side (bot not yet hodling, its own core at
tick 0 and its own $100,000 ledger). -/
def hodlC3 : HodlSim :=
  { bot := { initial_cash := 100000, is_hodling := false,
             hodl_start_tick := 0, pre_shock_nav := 0 },
    core := { current_tick := 0, last_shock_tick := 0, nav_history := [],
              previous_nav := 100000 },
    ledger := { _cash := 100000, assets := [] } }

/-- Random draws for the tick; the shock fields are never consulted because
both engines are inside their cooldown windows. -/
def rngC3 : TickRng :=
  { shock_roll := 1, shock_type := .MARKET_VOLATILITY, rate_bps := 0,
    vol_draws := fun _ => 0, payout_draws := fun _ => ⟨0, 5/4, 1/5⟩ }

/-- The simulation state with the HODL comparison enabled. -/
def simWithHodl : Sim :=
  { core := coreC3, ledger := ledgerC3, backends := backendsC3,
    hodl? := some hodlC3 }

/-- The identical simulation state without the HODL comparison. -/
def simNoHodl : Sim :=
  { core := coreC3, ledger := ledgerC3, backends := backendsC3,
    hodl? := none }

/-- C3: the claim says the HODL comparison leaves all state that determines
the primary engine's future behaviour — including the shared project
backend's investment records and countdowns — as it would be without the
comparison.  In the code the HODL engine's `tick` runs against the *same*
`project_backend` object, so `ProjectBackend.tick` executes twice per
simulation tick and each live record's `weeks_remaining` is decremented
twice.  Starting from identical states holding one record with 3 weeks
remaining, one `SimulationEngine.tick` leaves the shared record at 1 week
with the comparison enabled but at 2 weeks without it, so the two runs'
shared backend states diverge (and the countdown will later reach zero
early, paying the completion into the HODL ledger instead of the primary
one). -/
theorem C3_theorem :
    ((SimulationEngine.tick rngC3 rngC3 none simWithHodl).toOption.map
      (fun r => r.2.backends.projectB.map ProjectBackend.agent_investments))
      = some (some [⟨"P-005", 1000, 1⟩]) ∧
    ((SimulationEngine.tick rngC3 rngC3 none simNoHodl).toOption.map
      (fun r => r.2.backends.projectB.map ProjectBackend.agent_investments))
      = some (some [⟨"P-005", 1000, 2⟩]) ∧
    (⟨"P-005", 1000, 1⟩ : ProjectInvestment) ≠ ⟨"P-005", 1000, 2⟩ :=
  ⟨rfl, rfl, by decide⟩

end Octavia
